import Mathlib

/-!
Verification development for the multi-panel skill session router of the
jarvis repository (src/skills/router.py, src/skills/code_tools.py,
src/main.py).  Python dicts keyed by panel id are embedded as association
lists in insertion order; asyncio futures are embedded as an explicit
three-state value; the agentic turn loops are embedded as deterministic
interpreters over a script of externally supplied backend turns, approval
resolutions and executor outcomes, emitting an explicit event trace for
the callback activity.
-/

namespace Jarvis

/- ── Basic string machinery (embedding Python str operations) ── -/

/-- needle occurs at the start of hay (Python startswith, on char lists). -/
def strStarts : List Char → List Char → Bool
  | _, [] => true
  | [], _ :: _ => false
  | a :: as, b :: bs => a == b && strStarts as bs

/-- needle occurs somewhere in hay (Python `in` on strings). -/
def charsHas : List Char → List Char → Bool
  | [], needle => needle.isEmpty
  | hay@(_ :: rest), needle => strStarts hay needle || charsHas rest needle

/-- Python text.lower() on char lists. -/
def lowerChars (l : List Char) : List Char := l.map Char.toLower

/-- Python text.strip() on char lists: drop whitespace at both ends. -/
def stripChars (l : List Char) : List Char :=
  ((l.dropWhile Char.isWhitespace).reverse.dropWhile Char.isWhitespace).reverse

/-- Python text.rstrip(".") on char lists. -/
def rstripDots (l : List Char) : List Char :=
  (l.reverse.dropWhile (fun c => c == '.')).reverse

/-- Python text.rstrip() on char lists (drop trailing whitespace). -/
def rstripWs (l : List Char) : List Char :=
  (l.reverse.dropWhile Char.isWhitespace).reverse

/-- The normalization `text.lower().strip().rstrip(".")` used by all
command-phrase predicates in src/main.py. -/
def normText (s : String) : List Char :=
  rstripDots (stripChars (lowerChars s.data))

/- ── Association-list model of Python dicts keyed by panel id ── -/

/-- Lookup by key in an association list (first match, as in a dict). -/
def lookupA {α : Type} (q : Nat) : List (Nat × α) → Option α
  | [] => none
  | e :: r => if e.1 = q then some e.2 else lookupA q r

/-- dict.pop(p) on the entry list: remove the entry with key p. -/
def removeKey {α : Type} (p : Nat) : List (Nat × α) → List (Nat × α)
  | [] => []
  | e :: l => if e.1 = p then removeKey p l else e :: removeKey p l

/-- The renumbering comprehension used on every close path:
`new[pid - 1 if pid > panel else pid] = state` over remaining entries. -/
def shiftKeys {α : Type} (p : Nat) : List (Nat × α) → List (Nat × α)
  | [] => []
  | e :: l => (if e.1 > p then e.1 - 1 else e.1, e.2) :: shiftKeys p l

/- ── Data model: panel state and approval futures ── -/

/-- The state of an asyncio future used as the pending run_command approval:
still pending, resolved by set_result(b), or cancelled. -/
inductive FutureState where
  | pendingFut
  | resolvedFut (approved : Bool)
  | cancelledFut
deriving DecidableEq, Repr

/-- future.done() is true once the future is resolved or cancelled. -/
def futureDone : FutureState → Bool
  | .pendingFut => false
  | .resolvedFut _ => true
  | .cancelledFut => true

/-- Per-panel session state: the dict created by SkillRouter.get_panel
(chat and session are opaque backend handles, kept as numeric ids). -/
structure PanelState where
  chat : Option Nat
  session : Option Nat
  is_code : Bool
  skill_name : Option String
  cancelled : Bool
  pending_approval : Option FutureState
  pending_command : Option String
deriving DecidableEq, Repr

/-- The fresh panel dict inserted by SkillRouter.get_panel when the key is
missing: all fields cleared. -/
def defaultPanelState : PanelState :=
  { chat := none, session := none, is_code := false, skill_name := none,
    cancelled := false, pending_approval := none, pending_command := none }

/-- The router panel map (self.panels), a dict from panel id to state. -/
abbrev PanelMap := List (Nat × PanelState)

/- ── SkillRouter operations on the panel map ── -/

/-- SkillRouter.get_panel: get or create panel session state.  Returns the
panel state together with the possibly-grown map (a missing key inserts a
fresh default entry). -/
def get_panel (p : Nat) (m : PanelMap) : PanelState × PanelMap :=
  match lookupA p m with
  | some ps => (ps, m)
  | none => (defaultPanelState, m ++ [(p, defaultPanelState)])

/-- Replace the state stored at key p (models mutating the dict entry that
get/lookup aliases). -/
def updatePanel (p : Nat) (v : PanelState) (m : PanelMap) : PanelMap :=
  m.map (fun e => if e.1 = p then (e.1, v) else e)

/-- SkillRouter.has_pending_approval: the panel map entry (if any) has an
approval future that is not None and not done. -/
def has_pending_approval (p : Nat) (m : PanelMap) : Bool :=
  match lookupA p m with
  | none => false
  | some ps =>
    match ps.pending_approval with
    | none => false
    | some f => !futureDone f

/-- SkillRouter.get_pending_command (empty string when absent, matching the
default used by the dict lookups). -/
def get_pending_command (p : Nat) (m : PanelMap) : String :=
  match lookupA p m with
  | none => ""
  | some ps => ps.pending_command.getD ""

/-- future.set_result(b) guarded by `not done()` as in approve_command. -/
def resolveFuture (b : Bool) : FutureState → FutureState
  | .pendingFut => .resolvedFut b
  | f => f

/-- SkillRouter.approve_command: resolve a pending approval for a panel.
Uses get_panel, so a missing panel id inserts a fresh entry first. -/
def approve_command (approved : Bool) (p : Nat) (m : PanelMap) : PanelMap :=
  let (ps, m') := get_panel p m
  match ps.pending_approval with
  | some f =>
    if futureDone f then m'
    else updatePanel p { ps with pending_approval := some (resolveFuture approved f) } m'
  | none => m'

/-- future.cancel() guarded by `not done()` as in cancel_panel. -/
def cancelFuture : Option FutureState → Option FutureState
  | some .pendingFut => some .cancelledFut
  | f => f

/-- The effect of SkillRouter.cancel_panel on one panel state dict:
set the cancelled flag, drop the chat handle, and cancel a pending (not
yet done) approval future.  The session handle is left bound; its
asynchronous session.cancel() is an effect on the backend, not the map. -/
def cancelPanelPs (ps : PanelState) : PanelState :=
  { ps with
    cancelled := true
    chat := none
    pending_approval := cancelFuture ps.pending_approval }

/-- SkillRouter.cancel_panel: a no-op when the panel id is unbound
(self.panels.get returns None), otherwise updates the entry in place. -/
def cancel_panel (p : Nat) (m : PanelMap) : PanelMap :=
  match lookupA p m with
  | none => m
  | some ps => updatePanel p (cancelPanelPs ps) m

/-- SkillRouter.close_panel state effect: pop the entry for p (with a
default, so a missing key is tolerated), then renumber every remaining
entry with key above p down by one. -/
def close_panel (p : Nat) (m : PanelMap) : PanelMap :=
  shiftKeys p (removeKey p m)

/-- An orchestrator task handle (asyncio.Task), kept opaque. -/
structure TaskH where
  tid : Nat
deriving DecidableEq, Repr

/-- The task-map renumbering on the escape close path in main.on_skill_input:
pop the closed panel id, then shift keys above it down by one. -/
def renumberTasksEscape (p : Nat) (t : List (Nat × TaskH)) : List (Nat × TaskH) :=
  shiftKeys p (removeKey p t)

/-- The task-map renumbering on the close-command path in main.on_skill_input:
same pop-then-shift comprehension at the second call site. -/
def renumberTasksClose (p : Nat) (t : List (Nat × TaskH)) : List (Nat × TaskH) :=
  shiftKeys p (removeKey p t)

/- ── send_followup entry (the session dispatch before any streaming) ── -/

/-- How send_followup leaves the router before any backend interaction:
either an early-returned error string, or it proceeds to drive the bound
Claude Code session or Gemini chat stream. -/
inductive FollowupOutcome where
  | err (msg : String)
  | runsCodeSession
  | runsChatStream
deriving DecidableEq, Repr

/-- SkillRouter.send_followup up to its first backend call: get_panel (which
may insert a fresh default entry), then dispatch on is_code and the bound
handles, returning the error strings of the source verbatim. -/
def send_followup (p : Nat) (m : PanelMap) : PanelMap × FollowupOutcome :=
  let (ps, m') := get_panel p m
  if ps.is_code then
    match ps.session with
    | none => (m', .err "No active Claude Code session")
    | some _ => (m', .runsCodeSession)
  else
    match ps.chat with
    | none => (m', .err "No active chat session")
    | some _ => (m', .runsChatStream)

/- ── Tool executors (src/skills/code_tools.py) ──
An `Except String _` return embeds Python control flow: `Except.error e`
is an exception of message e escaping the executor, `Except.ok d` is a
returned result dict. -/

/-- code_tools.PROJECTS_DIR (its own resolve is itself: no links modeled). -/
def PROJECTS_DIR : String := "/Users/dylan/Desktop/projects"

/-- The home directory used by Path.expanduser on this machine. -/
def HOME_DIR : String := "/Users/dylan"

/-- Path.expanduser: expand a leading tilde to the home directory
(the `~user` form is not modeled; such paths pass through unchanged). -/
def expanduser (p : String) : String :=
  if p == "~" then HOME_DIR
  else if strStarts p.data "~/".data then HOME_DIR ++ p.drop 1
  else p

/-- Path.is_absolute on POSIX: the path starts with a slash. -/
def isAbsolutePath (p : String) : Bool := strStarts p.data "/".data

/-- str.split on the path separator, over char lists. -/
def splitSlash : List Char → List (List Char)
  | [] => [[]]
  | c :: rest =>
    if c == '/' then [] :: splitSlash rest
    else
      match splitSlash rest with
      | [] => [[c]]
      | s :: ss => (c :: s) :: ss

/-- Join path segments with the separator, over char lists. -/
def joinSlash : List (List Char) → List Char
  | [] => []
  | [s] => s
  | s :: ss => s ++ '/' :: joinSlash ss

/-- Segment-stack normalization of Path.resolve: drop empty and dot
segments, let a dotdot segment pop the stack (symbolic links are not
modeled; resolution is purely lexical). -/
def normSegs : List (List Char) → List (List Char) → List (List Char)
  | acc, [] => acc.reverse
  | acc, s :: rest =>
    if s.isEmpty || s == ".".data then normSegs acc rest
    else if s == "..".data then normSegs (acc.drop 1) rest
    else normSegs (s :: acc) rest

/-- Path.resolve on an absolute path, lexically. -/
def resolveLex (p : List Char) : List Char :=
  '/' :: joinSlash (normSegs [] (splitSlash p))

/-- code_tools.resolve_path: expanduser, anchor relative paths under
PROJECTS_DIR, resolve, then the jail check, raising ValueError (embedded
as Except.error) when the resolved string does not start with the
projects directory string. -/
def resolve_path (path : String) : Except String String :=
  let p := expanduser path
  let p := if isAbsolutePath p then p else PROJECTS_DIR ++ "/" ++ p
  let resolved := String.mk (resolveLex p.data)
  if strStarts resolved.data PROJECTS_DIR.data then Except.ok resolved
  else Except.error ("Path outside allowed directory: " ++ path)

/-- code_tools.MAX_OUTPUT_CHARS. -/
def MAX_OUTPUT_CHARS : Nat := 12000

/-- code_tools.truncate. -/
def truncate (text : String) : String :=
  if text.length > MAX_OUTPUT_CHARS then
    (text.take MAX_OUTPUT_CHARS) ++ "\n... (truncated, " ++ toString text.length ++ " total chars)"
  else text

/-- A result dict returned by a tool executor. -/
inductive ToolDict where
  | errorDict (msg : String)
  | readDict (path content : String) (lines : Nat)
  | runDict (exit_code : Int) (stdout : String) (stderr : Option String)
deriving DecidableEq, Repr

/-- A node of the filesystem oracle handed to the file tools. -/
inductive FsNode where
  | absent
  | file (content : String)
  | directory
deriving DecidableEq, Repr

/-- code_tools.read_file: the resolve_path exception escapes (there is no
try block in the executor); existence and file checks become error dicts;
a readable file becomes the path/content/lines dict. -/
def read_file (fs : String → FsNode) (path : String) : Except String ToolDict :=
  match resolve_path path with
  | .error e => .error e
  | .ok resolved =>
    match fs resolved with
    | .absent => .ok (.errorDict ("File not found: " ++ path))
    | .directory => .ok (.errorDict ("Not a file: " ++ path))
    | .file content =>
      .ok (.readDict resolved (truncate content)
        ((content.data.filter (fun c => c == '\n')).length + 1))

/-- code_tools.BLOCKED_PATTERNS, in source order. -/
def BLOCKED_PATTERNS : List String :=
  ["http.server", "SimpleHTTPServer",
   "sudo ", "rm -rf", "rm -r /",
   "mkfs", "dd if=",
   "curl | sh", "curl | bash",
   "wget | sh", "wget | bash",
   "> /dev/sd", "shutdown", "reboot"]

/-- First blocked pattern occurring in the lowercased command, if any. -/
def findBlockedPattern (command : String) : Option String :=
  BLOCKED_PATTERNS.find? (fun pat => charsHas (lowerChars command.data) pat.data)

/-- What the spawned subprocess would do, supplied as an oracle. -/
structure ProcOutcome where
  timedOut : Bool
  exit_code : Int
  stdout : String
  stderr : String
deriving Repr

/-- code_tools.run_command: background-suffix check, blocked-pattern scan,
cwd jail resolution (whose ValueError escapes), then the scripted
subprocess outcome with the timeout and stderr shaping of the source. -/
def run_command (proc : ProcOutcome) (command : String) (cwd : Option String) :
    Except String ToolDict :=
  if (rstripWs command.data).getLast? == some '&' then
    .ok (.errorDict "Background processes (&) are not allowed.")
  else
    match findBlockedPattern command with
    | some pat => .ok (.errorDict ("Blocked command pattern: " ++ pat))
    | none =>
      match (match cwd with
             | some c => resolve_path c
             | none => Except.ok PROJECTS_DIR) with
      | .error e => .error e
      | .ok _ =>
        if proc.timedOut then .ok (.errorDict "Command timed out after 30s")
        else
          .ok (.runDict proc.exit_code (truncate proc.stdout)
            (if (stripChars proc.stderr.data).isEmpty then none
             else some (truncate proc.stderr)))

/- ── The TOOL_DISPATCH registry and tool classification ── -/

/-- The keys of code_tools.TOOL_DISPATCH. -/
def isKnownTool (name : String) : Bool :=
  name == "run_command" || name == "read_file" || name == "write_file" ||
  name == "edit_file" || name == "list_files" || name == "search_files"

/-- The coroutine executors of TOOL_DISPATCH (the ones whose await is a
suspension point where a cancellation can land mid-call). -/
def isAsyncTool (name : String) : Bool :=
  name == "run_command" || name == "search_files"

/-- The approval-gated tool of the code turn loop. -/
def isGatedTool (name : String) : Bool := name == "run_command"

/- ── Default conversation turn loop (SkillRouter.send_default_message) ──
The Gemini backend is external: a script says, per loop iteration, what
the stream would deliver (text, function calls, or a timeout).  Executor
calls are counted; their results do not influence control flow. -/

/-- One scripted backend function call in the default loop. -/
structure DCall where
  name : String
deriving DecidableEq, Repr

/-- One scripted backend turn of the default loop. -/
structure DTurn where
  timedOut : Bool
  calls : List DCall
deriving Repr

/-- The per-turn function-call loop of send_default_message: the counter
is incremented per call, a code_assistant call returns a skill trigger at
once, any other call is dispatched (executed when the registry knows it,
an unknown-tool error dict otherwise) and appends one response part, and
the ceiling check `total >= max_tool_calls` runs only after the dispatch.
Returns (new total, executed count, response parts, triggered). -/
def dProcessCalls : List DCall → Nat → Nat → Nat × Nat × Nat × Bool
  | [], total, _ => (total, 0, 0, false)
  | fc :: rest, total, maxCalls =>
    let total := total + 1
    if fc.name == "code_assistant" then (total, 0, 0, true)
    else
      let ex := if isKnownTool fc.name then 1 else 0
      if total ≥ maxCalls then (total, ex, 1, false)
      else
        let r := dProcessCalls rest total maxCalls
        (r.1, ex + r.2.1, 1 + r.2.2.1, r.2.2.2)

/-- The iteration loop of send_default_message (max_iterations 3,
max_tool_calls 3), scripted by the backend turns, returning the final
tool-call counter and the number of executor invocations. -/
def dLoop (turns : Nat → DTurn) : Nat → Nat → Nat → Nat → Nat × Nat
  | 0, _, total, executed => (total, executed)
  | fuel + 1, iter, total, executed =>
    let t := turns iter
    if t.timedOut then (total, executed)
    else if t.calls.isEmpty then (total, executed)
    else
      let pr := dProcessCalls t.calls total 3
      if pr.2.2.2 then (pr.1, executed + pr.2.1)
      else if pr.2.2.1 == 0 then (pr.1, executed + pr.2.1)
      else dLoop turns fuel (iter + 1) pr.1 (executed + pr.2.1)

/-- send_default_message entry: max_iterations = 3, counters at zero. -/
def send_default_message (turns : Nat → DTurn) : Nat × Nat :=
  dLoop turns 3 0 0 0

/- ── Agentic code turn loop (SkillRouter.run_code_turn) ──
The loop is embedded as a deterministic interpreter over a script that
supplies everything the environment does: the chunks each backend stream
yields, where an external cancel_panel lands (each suspension point
carries a flag), how each pending-approval await resolves, and what each
executor invocation returns.  The interpreter emits the event trace of
the callbacks and of the approval-future lifecycle. -/

/-- A tool result value fed back to the backend: a non-error result dict
(payload abstracted) or an error dict with its message. -/
inductive ToolResult where
  | value (payload : String)
  | error (msg : String)
deriving DecidableEq, Repr

/-- A part of the next turn input message. -/
inductive Part where
  | funcResp (tool : String) (r : ToolResult)
  | textPart (s : String)
deriving DecidableEq, Repr

/-- Scripted executor behaviour, before the dispatch-site conversion:
return a result dict, exceed the 45 second wait_for budget (coroutine
executors only), or raise an exception with the given message. -/
inductive ExecBehavior where
  | returns (r : ToolResult)
  | timesOut
  | raises (msg : String)
deriving DecidableEq, Repr

/-- The dispatch-site try/except of the loop: a returned dict passes
through, a timeout or exception becomes an error dict, never an
exception. -/
def runExecutor (name : String) (b : ExecBehavior) : ToolResult :=
  match b with
  | .returns r => r
  | .timesOut => .error ("Tool " ++ name ++ " timed out (45s)")
  | .raises m => .error m

/-- How the await of a pending approval ends: resolved by
approve_command(True/False), or the future cancelled by cancel_panel. -/
inductive AwaitOutcome where
  | approved
  | denied
  | futCancelled
deriving DecidableEq, Repr

/-- One backend function call together with its scripted environment:
the command argument, the approval outcome if gated, the executor
behaviour if executed, and whether cancel_panel lands during the
executor await. -/
structure SCall where
  name : String
  cmd : String
  outcome : AwaitOutcome
  behavior : ExecBehavior
  cancelDuringExec : Bool
deriving Repr

/-- One scripted stream chunk: whether cancel_panel landed during the
wait for it, whether the 300 second turn budget is exceeded when it
arrives, its text and its function calls. -/
structure SChunk where
  cancelHere : Bool
  timedOut : Bool
  text : Option String
  calls : List SCall
deriving Repr

/-- How a scripted turn's stream behaves as a whole. -/
inductive StreamOutcome where
  | openTimeout (cancelHere : Bool)
  | streamError (cancelHere : Bool) (msg : String)
  | streamChunks (cs : List SChunk)
deriving Repr

/-- One scripted turn: whether cancel_panel landed before the loop top
check, and the stream behaviour. -/
structure STurn where
  cancelBefore : Bool
  stream : StreamOutcome
deriving Repr

/-- Observable events of one run_code_turn execution, in order: the
on_chunk and on_tool_activity callbacks, executor invocations, the
approval-future lifecycle, external cancellations taking effect, and the
messages sent back to the backend. -/
inductive Ev where
  | chunk (s : String)
  | actStart (tool : String)
  | actApproval (tool : String)
  | actResult (tool : String) (r : ToolResult)
  | execCall (tool : String)
  | approvalCreated
  | approvalDone
  | cancelEv
  | sent (parts : List Part)
deriving DecidableEq, Repr

/-- The notice emitted when a chunk arrives past the 300 second budget. -/
def streamTimeoutNotice : String := "\n\n*(Stream timed out.)*"

/-- The notice emitted when opening the stream times out. -/
def requestTimeoutNotice : String := "\n\n*(Request timed out.)*"

/-- The notice emitted when the tool budget is exhausted at a turn start. -/
def toolLimitNotice : String := "\n\n*(Tool limit reached — ask me to continue if needed.)*"

/-- The wrap-up directive injected near the iteration or tool budget. -/
def wrapUpMsg : String :=
  "[SYSTEM: You are approaching the tool call limit. Summarize your findings and respond to the user NOW with text.]"

/-- The chunk-streaming inner loop: per chunk, apply a scripted external
cancellation, then the turn-budget check (which emits its notice before
the cancelled check, exactly as in the source), then the cancelled
check, then text forwarding and function-call collection.  Returns the
panel state, the events, the turn text and the collected calls. -/
def readChunks : List SChunk → PanelState → PanelState × List Ev × String × List SCall
  | [], ps => (ps, [], "", [])
  | c :: rest, ps =>
    let st := if c.cancelHere then (cancelPanelPs ps, [Ev.cancelEv]) else (ps, ([] : List Ev))
    let ps := st.1
    let evC := st.2
    if c.timedOut then
      (ps, evC ++ [Ev.chunk streamTimeoutNotice], "", [])
    else if ps.cancelled then
      (ps, evC, "", [])
    else
      let txtPair := match c.text with
        | some s => ([Ev.chunk s], s)
        | none => (([] : List Ev), "")
      let r := readChunks rest ps
      (r.1, evC ++ txtPair.1 ++ r.2.1, txtPair.2 ++ r.2.2.1, c.calls ++ r.2.2.2)

/-- The executor dispatch step for one call: a known tool is invoked
(with a scripted external cancellation possibly landing during the await
of a coroutine executor, after which the result activity still fires),
an unknown tool synthesizes an error dict without any invocation. -/
def execStep (fc : SCall) (ps : PanelState) : PanelState × List Ev × ToolResult :=
  if isKnownTool fc.name then
    let doCancel := fc.cancelDuringExec && isAsyncTool fc.name
    let ps' := if doCancel then cancelPanelPs ps else ps
    let r := runExecutor fc.name fc.behavior
    (ps', [Ev.execCall fc.name] ++ (if doCancel then [Ev.cancelEv] else []) ++ [Ev.actResult fc.name r], r)
  else
    let r := ToolResult.error ("Unknown tool: " ++ fc.name)
    (ps, [Ev.actResult fc.name r], r)

/-- Setting the gate: `pending_command` takes the command argument and a
fresh (pending) approval future is assigned. -/
def setApproval (cmd : String) (ps : PanelState) : PanelState :=
  { ps with pending_command := some cmd,
            pending_approval := some FutureState.pendingFut }

/-- Clearing the gate after the await: both fields return to None. -/
def clearApproval (ps : PanelState) : PanelState :=
  { ps with pending_approval := none, pending_command := none }

/-- The per-turn function-call loop: check the cancelled flag before each
call, count it, gate run_command behind a fresh approval future that is
awaited at once and cleared before anything else happens, synthesize the
denial error dict on denial and continue, break on a cancelled future,
otherwise dispatch the executor and append the response part.  Returns
the panel state, the counter, the events and the response parts. -/
def procCalls : List SCall → PanelState → Nat → PanelState × Nat × List Ev × List Part
  | [], ps, total => (ps, total, [], [])
  | fc :: rest, ps, total =>
    if ps.cancelled then (ps, total, [], [])
    else
      let total := total + 1
      if isGatedTool fc.name then
        let evs0 := [Ev.actStart fc.name, Ev.approvalCreated, Ev.actApproval fc.name]
        match fc.outcome with
        | .futCancelled =>
          (clearApproval (cancelPanelPs (setApproval fc.cmd ps)), total,
           evs0 ++ [Ev.cancelEv, Ev.approvalDone], [])
        | .denied =>
          let r := ToolResult.error "Command denied by user."
          let rec_ := procCalls rest (clearApproval (setApproval fc.cmd ps)) total
          (rec_.1, rec_.2.1,
           evs0 ++ [Ev.approvalDone, Ev.actResult fc.name r] ++ rec_.2.2.1,
           Part.funcResp fc.name r :: rec_.2.2.2)
        | .approved =>
          let ex := execStep fc (clearApproval (setApproval fc.cmd ps))
          let rec_ := procCalls rest ex.1 total
          (rec_.1, rec_.2.1,
           evs0 ++ [Ev.approvalDone] ++ ex.2.1 ++ rec_.2.2.1,
           Part.funcResp fc.name ex.2.2 :: rec_.2.2.2)
      else
        let ex := execStep fc ps
        let rec_ := procCalls rest ex.1 total
        (rec_.1, rec_.2.1,
         [Ev.actStart fc.name] ++ ex.2.1 ++ rec_.2.2.1,
         Part.funcResp fc.name ex.2.2 :: rec_.2.2.2)

/-- The outcome of a run_code_turn execution. -/
structure RunResult where
  ps : PanelState
  total : Nat
  trace : List Ev
  response : String
deriving Repr

/-- The iteration loop of run_code_turn (max_iterations 30,
max_tool_calls 50), following the source order: cancelled check at the
loop top, missing-chat check, the three stream outcomes (an open timeout
emits its notice without consulting the cancelled flag; a stream error
after a cancellation is silent), the post-stream cancelled check, the
no-calls termination, the budget check with its notice, the trim of the
call list to the remaining budget, the call loop, the post-call break on
cancellation or an empty part list, the wrap-up nudge, and the send of
the parts as the next turn input. -/
def codeLoop (turns : Nat → STurn) : Nat → Nat → PanelState → Nat → String → RunResult
  | 0, _, ps, total, resp => ⟨ps, total, [], resp⟩
  | fuel + 1, iter, ps, total, resp =>
    let t := turns iter
    let st0 := if t.cancelBefore then (cancelPanelPs ps, [Ev.cancelEv]) else (ps, ([] : List Ev))
    let ps := st0.1
    let evC := st0.2
    if ps.cancelled then ⟨ps, total, evC, resp⟩
    else if ps.chat.isNone then ⟨ps, total, evC, resp⟩
    else
      match t.stream with
      | .openTimeout ch =>
        let st1 := if ch then (cancelPanelPs ps, [Ev.cancelEv]) else (ps, ([] : List Ev))
        ⟨st1.1, total, evC ++ st1.2 ++ [Ev.chunk requestTimeoutNotice], resp⟩
      | .streamError ch msg =>
        let st1 := if ch then (cancelPanelPs ps, [Ev.cancelEv]) else (ps, ([] : List Ev))
        if st1.1.cancelled then ⟨st1.1, total, evC ++ st1.2, resp⟩
        else ⟨st1.1, total, evC ++ st1.2 ++ [Ev.chunk ("\n\n*(Error: " ++ msg ++ ")*")], resp⟩
      | .streamChunks cs =>
        let rd := readChunks cs ps
        let ps := rd.1
        let evs1 := rd.2.1
        let turnText := rd.2.2.1
        let calls := rd.2.2.2
        if ps.cancelled then ⟨ps, total, evC ++ evs1, resp⟩
        else
          let resp := resp ++ turnText
          if calls.isEmpty then ⟨ps, total, evC ++ evs1, resp⟩
          else
            let remaining := 50 - total
            if remaining == 0 then
              ⟨ps, total, evC ++ evs1 ++ [Ev.chunk toolLimitNotice], resp⟩
            else
              let pc := procCalls (calls.take remaining) ps total
              let ps := pc.1
              let total' := pc.2.1
              let evs2 := pc.2.2.1
              let parts := pc.2.2.2
              if ps.cancelled || parts.isEmpty then
                ⟨ps, total', evC ++ evs1 ++ evs2, resp⟩
              else
                let parts :=
                  if iter ≥ 28 || total' ≥ 48 then parts ++ [Part.textPart wrapUpMsg] else parts
                let r := codeLoop turns fuel (iter + 1) ps total' resp
                ⟨r.ps, r.total, evC ++ evs1 ++ evs2 ++ [Ev.sent parts] ++ r.trace, r.response⟩

/-- run_code_turn entry: the panel's cancelled flag is reset, the
counter starts at zero, max_iterations is 30. -/
def run_code_turn (turns : Nat → STurn) (ps0 : PanelState) : RunResult :=
  codeLoop turns 30 0 { ps0 with cancelled := false } 0 ""

/- ── Chat-input interpretation (main.on_skill_input, skill_chat branch) ── -/

/-- `phrase == normalized or normalized.startswith(phrase)` over a list. -/
def phraseEqOrStarts (norm : List Char) (phrases : List String) : Bool :=
  phrases.any (fun p => norm == p.data || strStarts norm p.data)

/-- `phrase in normalized` over a list. -/
def phraseIn (norm : List Char) (phrases : List String) : Bool :=
  phrases.any (fun p => charsHas norm p.data)

/-- main.is_split_command. -/
def isSplitCommand (text : String) : Bool :=
  phraseIn (normText text)
    ["new window", "spawn window", "split window", "open new window", "spawn new window"]

/-- main.is_close_command. -/
def isCloseCommand (text : String) : Bool :=
  phraseIn (normText text)
    ["close window", "close the window", "close chat", "close the chat",
     "exit chat", "exit window", "close this", "that's all", "done with this",
     "go back", "never mind", "nevermind"]

/-- The logs/debug command check: `user_text.strip().lower()` against the
three literals. -/
def isLogsCommand (text : String) : Bool :=
  let n := lowerChars (stripChars text.data)
  n == "logs".data || n == "debug".data || n == "show logs".data

/-- All characters are non-whitespace (the regex class of backslash-S). -/
def allNonWs (l : List Char) : Bool := l.all (fun c => !c.isWhitespace)

/-- The anchored URL regex of main: an http or https scheme followed by
one or more non-space characters, or localhost, a colon, one or more
digits and non-space characters, case-insensitively. -/
def urlMatch (s : List Char) : Bool :=
  let l := lowerChars s
  (strStarts l "http://".data && 1 ≤ (s.drop 7).length && allNonWs (s.drop 7)) ||
  (strStarts l "https://".data && 1 ≤ (s.drop 8).length && allNonWs (s.drop 8)) ||
  (strStarts l "localhost:".data &&
    (match s.drop 10 with
     | [] => false
     | c :: rest => c.isDigit && allNonWs (c :: rest)))

/-- main.parse_open_url: strip, peel an `open ` command word, match the
URL regex, and prepend the scheme for bare localhost URLs (the prefix
test on `localhost` is case sensitive, as in the source). -/
def parse_open_url (text : String) : Option String :=
  let normalized := stripChars text.data
  let url_part :=
    if strStarts (lowerChars normalized) "open ".data
    then stripChars (normalized.drop 5)
    else normalized
  if urlMatch url_part then
    let url := String.mk url_part
    some (if strStarts url_part "localhost".data then "http://" ++ url else url)
  else none

/-- main.is_pinball_command. -/
def isPinballCommand (text : String) : Bool :=
  phraseEqOrStarts (normText text)
    ["pinball", "play pinball", "launch pinball", "open pinball", "start pinball"]

/-- main.is_minesweeper_command. -/
def isMinesweeperCommand (text : String) : Bool :=
  phraseEqOrStarts (normText text)
    ["minesweeper", "play minesweeper", "launch minesweeper", "open minesweeper",
     "start minesweeper", "mine sweeper"]

/-- main.is_tetris_command. -/
def isTetrisCommand (text : String) : Bool :=
  phraseEqOrStarts (normText text)
    ["tetris", "play tetris", "launch tetris", "open tetris", "start tetris"]

/-- main.is_draw_command. -/
def isDrawCommand (text : String) : Bool :=
  phraseEqOrStarts (normText text)
    ["draw", "drawing", "open draw", "launch draw", "start drawing",
     "whiteboard", "open whiteboard", "excalidraw", "sketch", "open sketch"]

/-- main.is_doodlejump_command. -/
def isDoodlejumpCommand (text : String) : Bool :=
  phraseEqOrStarts (normText text)
    ["doodle jump", "doodlejump", "play doodle jump", "play doodlejump",
     "launch doodle jump", "open doodle jump", "start doodle jump"]

/-- main.is_asteroids_command. -/
def isAsteroidsCommand (text : String) : Bool :=
  phraseEqOrStarts (normText text)
    ["asteroids", "asteroid", "play asteroids", "play asteroid",
     "launch asteroids", "open asteroids", "start asteroids"]

/-- main.is_kart_command. -/
def isKartCommand (text : String) : Bool :=
  phraseEqOrStarts (normText text)
    ["kart", "kart bros", "kartbros", "play kart", "mario kart", "racing",
     "play racing", "launch kart", "start kart", "open kart"]

/-- main.is_trivia_command. -/
def isTriviaCommand (text : String) : Bool :=
  phraseEqOrStarts (normText text)
    ["1 vs 100", "1v100", "one vs hundred", "one versus hundred", "trivia",
     "play trivia", "launch trivia", "start trivia", "trivia game",
     "one vs one hundred", "1 versus 100", "play 1v100", "play 1 vs 100"]

/-- main.is_subway_video_command. -/
def isSubwayVideoCommand (text : String) : Bool :=
  phraseEqOrStarts (normText text)
    ["subway video", "subway surfers video", "play subway video", "subway clip",
     "subway surfers clip", "gameplay video", "play gameplay", "background gameplay"]

/-- main.is_subway_command. -/
def isSubwayCommand (text : String) : Bool :=
  phraseEqOrStarts (normText text)
    ["subway", "subway surfers", "play subway surfers", "launch subway surfers",
     "open subway surfers", "start subway surfers", "play subway", "subway surf"]

/-- main.is_meme_command. -/
def isMemeCommand (text : String) : Bool :=
  phraseIn (normText text)
    ["show me a meme", "meme me", "random meme", "show meme", "gimme a meme",
     "show a meme"]

/-- main.is_chat_command. -/
def isChatCommand (text : String) : Bool :=
  phraseEqOrStarts (normText text)
    ["open chat", "launch chat", "start chat", "livechat", "live chat",
     "open livechat", "open live chat", "launch livechat", "launch live chat",
     "start livechat", "start live chat"]

/-- The approval phrases of the pending-approval branch. -/
def approvePhrases : List String :=
  ["yes", "yeah", "yep", "sure", "go", "go ahead", "approve", "run it",
   "do it", "ok", "okay", ""]

/-- The yes/no interpretation of the pending-approval branch: approve when
the normalized text is an approve phrase, a bare newline, or empty. -/
def isApproveText (text : String) : Bool :=
  let n := normText text
  approvePhrases.any (fun p => n == p.data) || text == "\n" || text == ""

/-- How a skill-chat text input event for a panel is interpreted. -/
inductive ChatAction where
  | escapeClose
  | splitWindow
  | showLogs
  | openUrl (url : String)
  | launchPinball
  | launchMinesweeper
  | launchTetris
  | launchDraw
  | launchDoodlejump
  | launchAsteroids
  | launchKart
  | launchTrivia
  | playSubwayVideo
  | launchSubway
  | showMeme
  | launchLivechat
  | closeWindow
  | resolveApproval (approved : Bool)
  | ignoreEmpty
  | rejectBusy
  | dispatchFollowup
deriving DecidableEq, Repr

/-- The dispatch order of the skill-chat branch of main.on_skill_input for
a text input event targeted at one panel: escape, split, logs, URL, the
game and media commands, livechat, close, then the pending-approval
resolution, then the empty-input and busy gates, then followup dispatch.
hasPending is the value of has_pending_approval for the target panel and
busy whether its previous task is still running. -/
def interpretChatInput (hasPending busy : Bool) (text : String) : ChatAction :=
  if text == "__escape__" then .escapeClose
  else if isSplitCommand text then .splitWindow
  else if isLogsCommand text then .showLogs
  else
    match parse_open_url text with
    | some u => .openUrl u
    | none =>
      if isPinballCommand text then .launchPinball
      else if isMinesweeperCommand text then .launchMinesweeper
      else if isTetrisCommand text then .launchTetris
      else if isDrawCommand text then .launchDraw
      else if isDoodlejumpCommand text then .launchDoodlejump
      else if isAsteroidsCommand text then .launchAsteroids
      else if isKartCommand text then .launchKart
      else if isTriviaCommand text then .launchTrivia
      else if isSubwayVideoCommand text then .playSubwayVideo
      else if isSubwayCommand text then .launchSubway
      else if isMemeCommand text then .showMeme
      else if isChatCommand text then .launchLivechat
      else if isCloseCommand text then .closeWindow
      else if hasPending then .resolveApproval (isApproveText text)
      else if (stripChars text.data).isEmpty then .ignoreEmpty
      else if busy then .rejectBusy
      else .dispatchFollowup

/- ── Trace measures and temporal checks over event traces ── -/

/-- Number of executor invocations in a trace. -/
def countExec : List Ev → Nat
  | [] => 0
  | Ev.execCall _ :: r => countExec r + 1
  | _ :: r => countExec r

/-- Number of result activity callbacks in a trace. -/
def countResults : List Ev → Nat
  | [] => 0
  | Ev.actResult _ _ :: r => countResults r + 1
  | _ :: r => countResults r

/-- Recognizes the event marking an external cancel_panel taking effect. -/
def isCancelEvB : Ev → Bool
  | .cancelEv => true
  | _ => false

/-- Whether a cancellation takes effect anywhere in the trace. -/
def hasCancel (l : List Ev) : Bool := l.any isCancelEvB

/-- The suffix of the trace strictly after the first cancellation
(empty when no cancellation occurs). -/
def afterFirstCancel : List Ev → List Ev
  | [] => []
  | e :: r => if isCancelEvB e then r else afterFirstCancel r

/-- The events delivered through the on_chunk or on_tool_activity
callbacks. -/
def isCallbackEv : Ev → Bool
  | .chunk _ => true
  | .actStart _ => true
  | .actApproval _ => true
  | .actResult _ _ => true
  | _ => false

/-- The events the loop can still produce after a cancellation took
effect: a timeout notice chunk, the result activity of the call in
flight, the closing of the pending future, or the cancellation marker. -/
def allowedAfterCancel : Ev → Bool
  | .chunk s => s == streamTimeoutNotice || s == requestTimeoutNotice
  | .actResult _ _ => true
  | .approvalDone => true
  | .cancelEv => true
  | _ => false

/-- Approval-future exclusivity automaton over a trace: live counts the
unresolved futures; a creation is admissible only while none is live. -/
def approvalsExclusive : List Ev → Nat → Bool
  | [], _ => true
  | Ev.approvalCreated :: r, live => live == 0 && approvalsExclusive r 1
  | Ev.approvalDone :: r, _ => approvalsExclusive r 0
  | _ :: r, live => approvalsExclusive r live

/-- Number of live approval futures after a trace. -/
def endLive : List Ev → Nat → Nat
  | [], live => live
  | Ev.approvalCreated :: r, _ => endLive r 1
  | Ev.approvalDone :: r, _ => endLive r 0
  | _ :: r, live => endLive r live

/-- has_pending_approval at the level of one panel state: an approval
future exists and is not done. -/
def hasPendingPs (ps : PanelState) : Bool :=
  match ps.pending_approval with
  | some .pendingFut => true
  | _ => false

/- ════════════════════ Theorems ════════════════════ -/

theorem lookupA_removeKey {α : Type} (p q : Nat) (l : List (Nat × α)) :
    lookupA q (removeKey p l) = if q = p then none else lookupA q l := by
  induction l with
  | nil => simp only [removeKey, lookupA]; split <;> rfl
  | cons e t ih =>
    simp only [removeKey]
    by_cases hep : e.1 = p
    · rw [if_pos hep, ih]
      by_cases hqp : q = p
      · simp [hqp]
      · rw [if_neg hqp, if_neg hqp]
        simp only [lookupA]
        rw [if_neg (by omega)]
    · rw [if_neg hep]
      simp only [lookupA]
      by_cases heq : e.1 = q
      · rw [if_pos heq, if_pos heq, if_neg (by omega)]
      · rw [if_neg heq, if_neg heq, ih]

theorem removeKey_no_key {α : Type} (p : Nat) (l : List (Nat × α)) :
    ∀ e ∈ removeKey p l, e.1 ≠ p := by
  induction l with
  | nil => simp [removeKey]
  | cons e t ih =>
    simp only [removeKey]
    by_cases hep : e.1 = p
    · rw [if_pos hep]; exact ih
    · rw [if_neg hep]
      intro x hx
      rcases List.mem_cons.mp hx with h | h
      · rw [h]; exact hep
      · exact ih x h

theorem lookupA_shiftKeys {α : Type} (p q : Nat) (l : List (Nat × α))
    (h : ∀ e ∈ l, e.1 ≠ p) :
    lookupA q (shiftKeys p l) = if q < p then lookupA q l else lookupA (q + 1) l := by
  induction l with
  | nil => simp only [shiftKeys, lookupA]; split <;> rfl
  | cons e t ih =>
    have he : e.1 ≠ p := h e (by simp)
    have ht : ∀ x ∈ t, x.1 ≠ p := fun x hx => h x (List.mem_cons_of_mem e hx)
    simp only [shiftKeys, lookupA]
    rw [ih ht]
    split_ifs <;> first | rfl | omega

theorem lookupA_shift_remove {α : Type} (p q : Nat) (l : List (Nat × α)) :
    lookupA q (shiftKeys p (removeKey p l)) =
      if q < p then lookupA q l else lookupA (q + 1) l := by
  rw [lookupA_shiftKeys p q _ (removeKey_no_key p l), lookupA_removeKey, lookupA_removeKey]
  split_ifs <;> first | rfl | omega

theorem lookupA_updatePanel (p : Nat) (v : PanelState) (m : PanelMap) :
    lookupA p (updatePanel p v m) = if (lookupA p m).isSome then some v else none := by
  induction m with
  | nil => rfl
  | cons e t ih =>
    by_cases hep : e.1 = p
    · simp only [updatePanel, List.map_cons, if_pos hep, lookupA]
      simp
    · simp only [updatePanel, List.map_cons, if_neg hep, lookupA]
      simp only [updatePanel] at ih
      simp [if_neg hep, ih]

theorem updatePanel_updatePanel (p : Nat) (v w : PanelState) (m : PanelMap) :
    updatePanel p v (updatePanel p w m) = updatePanel p v m := by
  induction m with
  | nil => rfl
  | cons e t ih =>
    simp only [updatePanel, List.map_cons] at ih ⊢
    by_cases hep : e.1 = p
    · simp [hep, ih]
    · simp [hep, ih]

theorem lookupA_append_missing {α : Type} (p : Nat) (x : α) (m : List (Nat × α))
    (hm : lookupA p m = none) : lookupA p (m ++ [(p, x)]) = some x := by
  induction m with
  | nil => simp [lookupA]
  | cons e t ih =>
    simp only [lookupA, List.cons_append] at hm ⊢
    by_cases hep : e.1 = p
    · rw [if_pos hep] at hm; exact (Option.some_ne_none _ hm).elim
    · rw [if_neg hep] at hm ⊢
      exact ih hm

theorem cancelPanelPs_idem (ps : PanelState) :
    cancelPanelPs (cancelPanelPs ps) = cancelPanelPs ps := by
  rcases ps with ⟨c, s, ic, sn, cf, pa, pc⟩
  rcases pa with _ | f
  · rfl
  · rcases f <;> rfl

/-- C9: cancel_panel is idempotent on the router panel map, and calling it
on a panel id with no entry is a state-preserving no-op. -/
theorem c9_cancel_idempotent (p : Nat) (m : PanelMap) :
    cancel_panel p (cancel_panel p m) = cancel_panel p m ∧
    (lookupA p m = none → cancel_panel p m = m) := by
  constructor
  · cases hm : lookupA p m with
    | none => simp [cancel_panel, hm]
    | some ps =>
      have h1 : lookupA p (updatePanel p (cancelPanelPs ps) m) = some (cancelPanelPs ps) := by
        rw [lookupA_updatePanel, hm]; rfl
      simp only [cancel_panel, hm, h1]
      rw [updatePanel_updatePanel, cancelPanelPs_idem]
  · intro hm
    simp [cancel_panel, hm]

/-- C9 witness: concrete instantiations of both conjuncts. -/
theorem c9_witness :
    cancel_panel 2 (cancel_panel 2 [(0, defaultPanelState)]) =
      cancel_panel 2 [(0, defaultPanelState)] ∧
    cancel_panel 2 [(0, defaultPanelState)] = [(0, defaultPanelState)] :=
  ⟨(c9_cancel_idempotent 2 [(0, defaultPanelState)]).1,
   (c9_cancel_idempotent 2 [(0, defaultPanelState)]).2 (by decide)⟩

/-- C10: send_followup on an unbound panel id reports the error string
while growing the panel map with a fresh default entry at that id. -/
theorem c10_send_followup_missing_panel (p : Nat) (m : PanelMap)
    (hm : lookupA p m = none) :
    send_followup p m = (m ++ [(p, defaultPanelState)], .err "No active chat session") ∧
    lookupA p (send_followup p m).1 = some defaultPanelState ∧
    (send_followup p m).1.length = m.length + 1 ∧
    defaultPanelState.is_code = false ∧
    defaultPanelState.session = none ∧
    defaultPanelState.pending_approval = none := by
  have hsf : send_followup p m = (m ++ [(p, defaultPanelState)], .err "No active chat session") := by
    simp [send_followup, get_panel, hm, defaultPanelState]
  refine ⟨hsf, ?_, ?_, rfl, rfl, rfl⟩
  · rw [hsf]
    exact lookupA_append_missing p defaultPanelState m hm
  · rw [hsf]; simp

/-- C10 witness: a dense one-panel map and the far-away panel id five. -/
theorem c10_witness :
    lookupA 5 [(0, defaultPanelState)] = none ∧
    send_followup 5 [(0, defaultPanelState)] =
      ([(0, defaultPanelState), (5, defaultPanelState)], .err "No active chat session") :=
  ⟨by decide,
   ((c10_send_followup_missing_panel 5 [(0, defaultPanelState)] (by decide)).1)⟩

/-- C8 counterexample: with the reachable non-dense panel map holding ids
zero and five, closing the absent id three re-keys panel five to four, so
close_panel on a missing id is not a no-op: ids above it still shift. -/
theorem c8_counterexample :
    lookupA 3 [(0, defaultPanelState), (5, { defaultPanelState with is_code := true })] = none ∧
    close_panel 3 [(0, defaultPanelState), (5, { defaultPanelState with is_code := true })] =
      [(0, defaultPanelState), (4, { defaultPanelState with is_code := true })] ∧
    lookupA 5 (close_panel 3
      [(0, defaultPanelState), (5, { defaultPanelState with is_code := true })]) = none := by
  refine ⟨by decide, by decide, by decide⟩

/-- C8 amended: close_panel on a panel id absent from the map never fails
and is a no-op exactly when no stored id exceeds the closed id (in
particular whenever the key set is dense and the id is out of range);
stored ids above the closed id are still shifted down by one. -/
theorem c8_amended_close_missing (p : Nat) (m : PanelMap)
    (hlow : ∀ e ∈ m, e.1 < p) :
    close_panel p m = m ∧
    (∀ (m' : PanelMap) (q : Nat), p ≤ q →
      lookupA q (close_panel p m') = lookupA (q + 1) m') := by
  constructor
  · unfold close_panel
    induction m with
    | nil => rfl
    | cons e t ih =>
      have he : e.1 < p := hlow e (by simp)
      have ht : ∀ x ∈ t, x.1 < p := fun x hx => hlow x (List.mem_cons_of_mem e hx)
      simp only [removeKey, shiftKeys]
      rw [if_neg (by omega)]
      simp only [shiftKeys]
      rw [if_neg (by omega)]
      have := ih ht
      simp only [removeKey, shiftKeys] at this ⊢
      rw [this]
  · intro m' q hq
    rw [show close_panel p m' = shiftKeys p (removeKey p m') from rfl, lookupA_shift_remove]
    rw [if_neg (by omega)]

/-- C8 amended witness: all ids below the closed id give a no-op, and the
shift characterization at a concrete point. -/
theorem c8_witness :
    close_panel 7 [(0, defaultPanelState), (1, defaultPanelState)] =
      [(0, defaultPanelState), (1, defaultPanelState)] ∧
    lookupA 8 (close_panel 7 [(3, defaultPanelState)]) = lookupA 9 [(3, defaultPanelState)] :=
  ⟨(c8_amended_close_missing 7 [(0, defaultPanelState), (1, defaultPanelState)]
      (by decide)).1,
   (c8_amended_close_missing 7 [(0, defaultPanelState), (1, defaultPanelState)]
      (by decide)).2 [(3, defaultPanelState)] 8 (by omega)⟩

/-- C1: closing a panel id inside a dense range leaves a dense range one
shorter, keeping lower ids and their states, re-keying every higher id
down by one with its state unchanged, and the orchestrator task map is
renumbered by the same pop-then-shift characterization on both close
paths, which coincide. -/
theorem c1_close_panel_renumbers_dense (m : PanelMap) (n p : Nat)
    (hdense : ∀ q, (lookupA q m).isSome ↔ q < n) (hp : p < n) :
    (∀ q, (lookupA q (close_panel p m)).isSome ↔ q < n - 1) ∧
    (∀ q, q < p → lookupA q (close_panel p m) = lookupA q m) ∧
    (∀ q, p ≤ q → lookupA q (close_panel p m) = lookupA (q + 1) m) ∧
    (∀ (t : List (Nat × TaskH)) (q : Nat),
      lookupA q (renumberTasksEscape p t) =
        (if q < p then lookupA q t else lookupA (q + 1) t) ∧
      renumberTasksEscape p t = renumberTasksClose p t) := by
  have hc : ∀ q, lookupA q (close_panel p m) =
      if q < p then lookupA q m else lookupA (q + 1) m := fun q =>
    lookupA_shift_remove p q m
  refine ⟨?_, ?_, ?_, ?_⟩
  · intro q
    rw [hc q]
    by_cases hqp : q < p
    · rw [if_pos hqp, hdense q]; omega
    · rw [if_neg hqp, hdense (q + 1)]; omega
  · intro q hq; rw [hc q, if_pos hq]
  · intro q hq; rw [hc q, if_neg (by omega)]
  · intro t q
    exact ⟨lookupA_shift_remove p q t, rfl⟩

/-- C1 witness: the dense three-panel map with distinct states, closing
panel one. -/
theorem c1_witness :
    (∀ q, (lookupA q [(0, defaultPanelState),
        (1, { defaultPanelState with is_code := true }),
        (2, { defaultPanelState with cancelled := true })]).isSome ↔ q < 3) ∧
    (∀ q, (lookupA q (close_panel 1 [(0, defaultPanelState),
        (1, { defaultPanelState with is_code := true }),
        (2, { defaultPanelState with cancelled := true })])).isSome ↔ q < 3 - 1) := by
  have hdense : ∀ q, (lookupA q [(0, defaultPanelState),
      (1, { defaultPanelState with is_code := true }),
      (2, { defaultPanelState with cancelled := true })]).isSome ↔ q < 3 := by
    intro q
    rcases q with _ | _ | _ | q <;> simp [lookupA]
  exact ⟨hdense,
    (c1_close_panel_renumbers_dense _ 3 1 hdense (by omega)).1⟩

/-- C4 counterexample: a panel with a live pending approval receives the
text `new window`; the split-window interpretation wins, so the pending
approval check does not take priority over split-window phrases. -/
theorem c4_counterexample :
    has_pending_approval 0
      [(0, { defaultPanelState with pending_approval := some FutureState.pendingFut })] = true ∧
    interpretChatInput
      (has_pending_approval 0
        [(0, { defaultPanelState with pending_approval := some FutureState.pendingFut })])
      false "new window" = ChatAction.splitWindow ∧
    (∀ b : Bool, ChatAction.splitWindow ≠ ChatAction.resolveApproval b) :=
  ⟨by decide, by decide, by decide⟩

/-- C4 amended: for a panel with a pending approval, the approve/deny
resolution applies to any text that matches none of the checks ordered
before it (escape, split, logs, URL, the game and media commands,
livechat, close); the approval check takes priority only over the
empty-input gate, the busy gate and followup dispatch. -/
theorem c4_amended_approval_priority (busy : Bool) (text : String)
    (h1 : (text == "__escape__") = false)
    (h2 : isSplitCommand text = false) (h3 : isLogsCommand text = false)
    (h4 : parse_open_url text = none)
    (h5 : isPinballCommand text = false) (h6 : isMinesweeperCommand text = false)
    (h7 : isTetrisCommand text = false) (h8 : isDrawCommand text = false)
    (h9 : isDoodlejumpCommand text = false) (h10 : isAsteroidsCommand text = false)
    (h11 : isKartCommand text = false) (h12 : isTriviaCommand text = false)
    (h13 : isSubwayVideoCommand text = false) (h14 : isSubwayCommand text = false)
    (h15 : isMemeCommand text = false) (h16 : isChatCommand text = false)
    (h17 : isCloseCommand text = false) :
    interpretChatInput true busy text = ChatAction.resolveApproval (isApproveText text) := by
  simp [interpretChatInput, h1, h2, h3, h4, h5, h6, h7, h8, h9, h10, h11, h12,
    h13, h14, h15, h16, h17]

/-- C4 amended witness: the denial text `no` resolves the approval. -/
theorem c4_witness :
    interpretChatInput true false "no" = ChatAction.resolveApproval (isApproveText "no") ∧
    isApproveText "no" = false :=
  ⟨c4_amended_approval_priority false "no" (by decide) (by decide) (by decide) (by decide)
      (by decide) (by decide) (by decide) (by decide) (by decide) (by decide) (by decide)
      (by decide) (by decide) (by decide) (by decide) (by decide) (by decide),
   by decide⟩

/-- C7 counterexample: read_file is in the dispatch registry, and on a
path resolving outside the projects directory it raises (the ValueError
of resolve_path escapes) instead of returning a result dict. -/
theorem c7_counterexample :
    read_file (fun _ => FsNode.absent) "/etc/passwd" =
      Except.error "Path outside allowed directory: /etc/passwd" := by rfl

/-- C7 amended: each executor returns a result dict whenever its path
arguments stay inside the jail (every in-jail failure is an error dict),
but an out-of-jail path raises out of the executor; the dispatch sites in
the turn loops convert any raised exception into an error result, so the
never-raise contract holds one level up, at the dispatch boundary. -/
theorem c7_amended_executor_contract :
    (∀ (fs : String → FsNode) (path r : String), resolve_path path = Except.ok r →
      ∃ d, read_file fs path = Except.ok d) ∧
    (∀ (proc : ProcOutcome) (cmd c r : String), resolve_path c = Except.ok r →
      ∃ d, run_command proc cmd (some c) = Except.ok d) ∧
    (∀ (proc : ProcOutcome) (cmd : String), ∃ d, run_command proc cmd none = Except.ok d) ∧
    (∀ (name msg : String), runExecutor name (ExecBehavior.raises msg) = ToolResult.error msg) := by
  refine ⟨?_, ?_, ?_, fun _ _ => rfl⟩
  · intro fs path r h
    cases hfs : fs r with
    | absent =>
      exact ⟨ToolDict.errorDict ("File not found: " ++ path), by simp [read_file, h, hfs]⟩
    | directory =>
      exact ⟨ToolDict.errorDict ("Not a file: " ++ path), by simp [read_file, h, hfs]⟩
    | file content =>
      exact ⟨ToolDict.readDict r (truncate content)
        ((List.filter (fun c => c == '\n') content.data).length + 1),
        by simp [read_file, h, hfs]⟩
  · intro proc cmd c r h
    cases hbg : (rstripWs cmd.data).getLast? == some '&' with
    | true =>
      exact ⟨ToolDict.errorDict "Background processes (&) are not allowed.",
        by simp [run_command, hbg]⟩
    | false =>
      cases hfb : findBlockedPattern cmd with
      | some pat =>
        exact ⟨ToolDict.errorDict ("Blocked command pattern: " ++ pat),
          by simp [run_command, hbg, hfb]⟩
      | none =>
        cases ht : proc.timedOut with
        | true =>
          exact ⟨ToolDict.errorDict "Command timed out after 30s",
            by simp [run_command, hbg, hfb, h, ht]⟩
        | false =>
          exact ⟨ToolDict.runDict proc.exit_code (truncate proc.stdout)
            (if stripChars proc.stderr.data = [] then none else some (truncate proc.stderr)),
            by simp [run_command, hbg, hfb, h, ht]⟩
  · intro proc cmd
    cases hbg : (rstripWs cmd.data).getLast? == some '&' with
    | true =>
      exact ⟨ToolDict.errorDict "Background processes (&) are not allowed.",
        by simp [run_command, hbg]⟩
    | false =>
      cases hfb : findBlockedPattern cmd with
      | some pat =>
        exact ⟨ToolDict.errorDict ("Blocked command pattern: " ++ pat),
          by simp [run_command, hbg, hfb]⟩
      | none =>
        cases ht : proc.timedOut with
        | true =>
          exact ⟨ToolDict.errorDict "Command timed out after 30s",
            by simp [run_command, hbg, hfb, ht]⟩
        | false =>
          exact ⟨ToolDict.runDict proc.exit_code (truncate proc.stdout)
            (if stripChars proc.stderr.data = [] then none else some (truncate proc.stderr)),
            by simp [run_command, hbg, hfb, ht]⟩

/-- C7 amended witness: a relative path resolves inside the jail and both
file and command executors return dicts on it. -/
theorem c7_witness :
    resolve_path "demo.txt" = Except.ok "/Users/dylan/Desktop/projects/demo.txt" ∧
    (∃ d, read_file (fun _ => FsNode.absent) "demo.txt" = Except.ok d) ∧
    (∃ d, run_command ⟨false, 0, "", ""⟩ "ls" (some "jarvis") = Except.ok d) :=
  ⟨by rfl,
   c7_amended_executor_contract.1 (fun _ => FsNode.absent) "demo.txt"
     "/Users/dylan/Desktop/projects/demo.txt" (by rfl),
   c7_amended_executor_contract.2.1 ⟨false, 0, "", ""⟩ "ls" "jarvis"
     "/Users/dylan/Desktop/projects/jarvis" (by rfl)⟩

theorem countExec_append (a b : List Ev) :
    countExec (a ++ b) = countExec a + countExec b := by
  induction a with
  | nil => simp [countExec]
  | cons e r ih => cases e <;> simp [countExec, ih] <;> omega

theorem dProcessCalls_bounds (l : List DCall) (maxc : Nat) :
    ∀ total, total ≤ (dProcessCalls l total maxc).1 ∧
      (dProcessCalls l total maxc).1 ≤ max maxc (total + 1) ∧
      (dProcessCalls l total maxc).2.1 + total ≤ (dProcessCalls l total maxc).1 := by
  induction l with
  | nil => intro total; simp [dProcessCalls]
  | cons fc rest ih =>
    intro total
    have hex : (if isKnownTool fc.name then 1 else 0) ≤ 1 := by split <;> omega
    by_cases hca : (fc.name == "code_assistant") = true
    · simp [dProcessCalls, hca]
    · by_cases hge : total + 1 ≥ maxc
      · simp [dProcessCalls, hca, hge]
        omega
      · have h := ih (total + 1)
        simp [dProcessCalls, hca, hge]
        omega

theorem dLoop_bounds (turns : Nat → DTurn) :
    ∀ (fuel iter total ex : Nat),
      (dLoop turns fuel iter total ex).1 ≤
        (if fuel = 0 then total else max 3 (total + 1) + (fuel - 1)) ∧
      (dLoop turns fuel iter total ex).2 + total ≤ (dLoop turns fuel iter total ex).1 + ex := by
  intro fuel
  induction fuel with
  | zero => intro iter total ex; simp [dLoop]; omega
  | succ n ih =>
    intro iter total ex
    rw [if_neg (Nat.succ_ne_zero n)]
    by_cases h1 : (turns iter).timedOut = true
    · simp [dLoop, h1]; omega
    · by_cases h2 : (turns iter).calls.isEmpty = true
      · simp [dLoop, h1, h2]; omega
      · have hb := dProcessCalls_bounds (turns iter).calls 3 total
        by_cases h3 : (dProcessCalls (turns iter).calls total 3).2.2.2 = true
        · simp [dLoop, h1, h2, h3]; omega
        · by_cases h4 : ((dProcessCalls (turns iter).calls total 3).2.2.1 == 0) = true
          · simp [dLoop, h1, h2, h3, h4]; omega
          · have hrec := ih (iter + 1) (dProcessCalls (turns iter).calls total 3).1
              (ex + (dProcessCalls (turns iter).calls total 3).2.1)
            by_cases hn : n = 0
            · subst hn
              simp only [if_pos rfl] at hrec
              simp [dLoop, h1, h2, h3, h4]
              omega
            · rw [if_neg hn] at hrec
              simp [dLoop, h1, h2, h3, h4]
              omega

theorem readChunks_no_exec (cs : List SChunk) :
    ∀ ps, countExec (readChunks cs ps).2.1 = 0 := by
  induction cs with
  | nil => intro ps; rfl
  | cons c rest ih =>
    intro ps
    cases htxt : c.text <;>
      simp only [readChunks, htxt] <;>
      split_ifs <;>
      simp [countExec_append, countExec, ih]

theorem execStep_exec_le (fc : SCall) (ps : PanelState) :
    countExec (execStep fc ps).2.1 ≤ 1 := by
  simp only [execStep]
  split_ifs <;> simp [countExec, countExec_append]

theorem procCalls_bounds (l : List SCall) :
    ∀ (ps : PanelState) (total : Nat),
      total ≤ (procCalls l ps total).2.1 ∧
      (procCalls l ps total).2.1 ≤ total + l.length ∧
      countExec (procCalls l ps total).2.2.1 + total ≤ (procCalls l ps total).2.1 := by
  induction l with
  | nil => intro ps total; simp [procCalls, countExec]
  | cons fc rest ih =>
    intro ps total
    by_cases hc : ps.cancelled = true
    · simp [procCalls, hc, countExec]
    · by_cases hg : isGatedTool fc.name = true
      · cases ho : fc.outcome with
        | futCancelled =>
          simp [procCalls, hc, hg, ho, countExec, countExec_append]
        | denied =>
          have h := ih (clearApproval (setApproval fc.cmd ps)) (total + 1)
          simp [procCalls, hc, hg, ho, countExec, countExec_append]
          omega
        | approved =>
          have hex := execStep_exec_le fc (clearApproval (setApproval fc.cmd ps))
          have h := ih (execStep fc (clearApproval (setApproval fc.cmd ps))).1 (total + 1)
          simp [procCalls, hc, hg, ho, countExec, countExec_append]
          omega
      · have hex := execStep_exec_le fc ps
        have h := ih (execStep fc ps).1 (total + 1)
        simp [procCalls, hc, hg, countExec, countExec_append]
        omega

theorem codeLoop_exec_le (turns : Nat → STurn) :
    ∀ (fuel iter : Nat) (ps : PanelState) (total : Nat) (resp : String),
      total ≤ 50 →
      countExec (codeLoop turns fuel iter ps total resp).trace + total ≤ 50 := by
  intro fuel
  induction fuel with
  | zero => intro iter ps total resp h; simp [codeLoop, countExec]; omega
  | succ n ih =>
    intro iter ps total resp htot
    by_cases hcb : (turns iter).cancelBefore = true
    · simp [codeLoop, hcb, cancelPanelPs, countExec]; omega
    · by_cases hpc : ps.cancelled = true
      · simp [codeLoop, hcb, hpc, countExec]; omega
      · by_cases hch : ps.chat.isNone = true
        · simp [codeLoop, hcb, hpc, hch, countExec]; omega
        · cases hstream : (turns iter).stream with
          | openTimeout ch =>
            cases ch <;> simp [codeLoop, hcb, hpc, hch, hstream, countExec] <;> omega
          | streamError ch msg =>
            cases ch <;>
              simp [codeLoop, hcb, hpc, hch, hstream, cancelPanelPs, countExec] <;>
              omega
          | streamChunks cs =>
            have hrd := readChunks_no_exec cs ps
            by_cases hrc : (readChunks cs ps).1.cancelled = true
            · simp [codeLoop, hcb, hpc, hch, hstream, hrc, countExec_append, countExec, hrd]
              omega
            · by_cases hemp : (readChunks cs ps).2.2.2.isEmpty = true
              · simp [codeLoop, hcb, hpc, hch, hstream, hrc, hemp, countExec_append,
                  countExec, hrd]
                omega
              · by_cases hrem : (50 - total == 0) = true
                · simp [codeLoop, hcb, hpc, hch, hstream, hrc, hemp, hrem,
                    countExec_append, countExec, hrd]
                  omega
                · have hlen : ((readChunks cs ps).2.2.2.take (50 - total)).length ≤ 50 - total := by
                    simp [List.length_take]
                  have hpb := procCalls_bounds ((readChunks cs ps).2.2.2.take (50 - total))
                    (readChunks cs ps).1 total
                  by_cases hbrk : ((procCalls ((readChunks cs ps).2.2.2.take (50 - total))
                      (readChunks cs ps).1 total).1.cancelled ||
                      (procCalls ((readChunks cs ps).2.2.2.take (50 - total))
                      (readChunks cs ps).1 total).2.2.2.isEmpty) = true
                  · simp [codeLoop, hcb, hpc, hch, hstream, hrc, hemp, hrem, hbrk,
                      countExec_append, countExec, hrd]
                    omega
                  · have h50 : (procCalls ((readChunks cs ps).2.2.2.take (50 - total))
                        (readChunks cs ps).1 total).2.1 ≤ 50 := by omega
                    have hrec := ih (iter + 1)
                      (procCalls ((readChunks cs ps).2.2.2.take (50 - total))
                        (readChunks cs ps).1 total).1
                      (procCalls ((readChunks cs ps).2.2.2.take (50 - total))
                        (readChunks cs ps).1 total).2.1
                      (resp ++ (readChunks cs ps).2.2.1) h50
                    simp [codeLoop, hcb, hpc, hch, hstream, hrc, hemp, hrem, hbrk,
                      countExec_append, countExec, hrd]
                    omega

/-- C2 counterexample: in the default loop (ceiling three), a backend
that requests three calls in the first turn and one more in each later
turn gets five calls executed, because the ceiling is only checked after
each dispatch and the loop still enters the next turn. -/
theorem c2_counterexample :
    (send_default_message (fun i =>
      if i == 0 then ⟨false, [⟨"read_file"⟩, ⟨"read_file"⟩, ⟨"read_file"⟩]⟩
      else ⟨false, [⟨"read_file"⟩]⟩)).2 = 5 ∧
    3 < (send_default_message (fun i =>
      if i == 0 then ⟨false, [⟨"read_file"⟩, ⟨"read_file"⟩, ⟨"read_file"⟩]⟩
      else ⟨false, [⟨"read_file"⟩]⟩)).2 := by
  constructor <;> decide

/-- C2 amended: the code-session loop (ceiling fifty) trims each turn's
calls to the remaining budget upfront, so its executed count never
exceeds fifty; the default loop (ceiling three) checks its ceiling only
after each dispatch, so one extra call can run per later turn, bounding
its executed count by ceiling plus iterations minus one, which is five. -/
theorem c2_amended_tool_ceiling :
    (∀ (turns : Nat → STurn) (ps0 : PanelState),
      countExec (run_code_turn turns ps0).trace ≤ 50) ∧
    (∀ (dturns : Nat → DTurn), (send_default_message dturns).2 ≤ 5) := by
  constructor
  · intro turns ps0
    have h := codeLoop_exec_le turns 30 0 { ps0 with cancelled := false } 0 "" (by omega)
    simpa [run_code_turn] using h
  · intro dturns
    have h := dLoop_bounds dturns 3 0 0 0
    rw [if_neg (by omega)] at h
    simp only [send_default_message]
    omega

theorem approvalsExclusive_append (a b : List Ev) :
    ∀ live, approvalsExclusive (a ++ b) live =
      (approvalsExclusive a live && approvalsExclusive b (endLive a live)) := by
  induction a with
  | nil => intro live; simp [approvalsExclusive, endLive]
  | cons e rest ih =>
    intro live
    cases e <;> simp [approvalsExclusive, endLive, ih, Bool.and_assoc]

theorem endLive_append (a b : List Ev) :
    ∀ live, endLive (a ++ b) live = endLive b (endLive a live) := by
  induction a with
  | nil => intro live; simp [endLive]
  | cons e rest ih => intro live; cases e <;> simp [endLive, ih]

theorem execStep_approvals (fc : SCall) (ps : PanelState) :
    ∀ live, approvalsExclusive (execStep fc ps).2.1 live = true ∧
      endLive (execStep fc ps).2.1 live = live := by
  intro live
  simp only [execStep]
  split_ifs <;> simp [approvalsExclusive, endLive]

theorem readChunks_approvals (cs : List SChunk) :
    ∀ (ps : PanelState) (live : Nat),
      approvalsExclusive (readChunks cs ps).2.1 live = true ∧
      endLive (readChunks cs ps).2.1 live = live := by
  induction cs with
  | nil => intro ps live; simp [readChunks, approvalsExclusive, endLive]
  | cons c rest ih =>
    intro ps live
    cases htxt : c.text <;>
      simp only [readChunks, htxt] <;>
      split_ifs <;>
      simp [approvalsExclusive, endLive, approvalsExclusive_append, ih]

theorem procCalls_approvals (l : List SCall) :
    ∀ (ps : PanelState) (total : Nat),
      approvalsExclusive (procCalls l ps total).2.2.1 0 = true ∧
      endLive (procCalls l ps total).2.2.1 0 = 0 := by
  induction l with
  | nil => intro ps total; simp [procCalls, approvalsExclusive, endLive]
  | cons fc rest ih =>
    intro ps total
    by_cases hc : ps.cancelled = true
    · simp [procCalls, hc, approvalsExclusive, endLive]
    · by_cases hg : isGatedTool fc.name = true
      · cases ho : fc.outcome with
        | futCancelled =>
          simp [procCalls, hc, hg, ho, approvalsExclusive, endLive]
        | denied =>
          have h := ih (clearApproval (setApproval fc.cmd ps)) (total + 1)
          simp [procCalls, hc, hg, ho, approvalsExclusive, endLive,
            approvalsExclusive_append, endLive_append, h]
        | approved =>
          have hx := execStep_approvals fc (clearApproval (setApproval fc.cmd ps)) 0
          have h := ih (execStep fc (clearApproval (setApproval fc.cmd ps))).1 (total + 1)
          simp [procCalls, hc, hg, ho, approvalsExclusive, endLive,
            approvalsExclusive_append, endLive_append, hx, h]
      · have hx := execStep_approvals fc ps 0
        have h := ih (execStep fc ps).1 (total + 1)
        simp [procCalls, hc, hg, approvalsExclusive, endLive,
          approvalsExclusive_append, endLive_append, hx, h]

theorem codeLoop_approvals (turns : Nat → STurn) :
    ∀ (fuel iter : Nat) (ps : PanelState) (total : Nat) (resp : String),
      approvalsExclusive (codeLoop turns fuel iter ps total resp).trace 0 = true ∧
      endLive (codeLoop turns fuel iter ps total resp).trace 0 = 0 := by
  intro fuel
  induction fuel with
  | zero => intro iter ps total resp; simp [codeLoop, approvalsExclusive, endLive]
  | succ n ih =>
    intro iter ps total resp
    by_cases hcb : (turns iter).cancelBefore = true
    · simp [codeLoop, hcb, cancelPanelPs, approvalsExclusive, endLive]
    · by_cases hpc : ps.cancelled = true
      · simp [codeLoop, hcb, hpc, approvalsExclusive, endLive]
      · by_cases hch : ps.chat.isNone = true
        · simp [codeLoop, hcb, hpc, hch, approvalsExclusive, endLive]
        · cases hstream : (turns iter).stream with
          | openTimeout ch =>
            cases ch <;>
              simp [codeLoop, hcb, hpc, hch, hstream, approvalsExclusive, endLive]
          | streamError ch msg =>
            cases ch <;>
              simp [codeLoop, hcb, hpc, hch, hstream, cancelPanelPs,
                approvalsExclusive, endLive]
          | streamChunks cs =>
            have hrd := readChunks_approvals cs ps
            by_cases hrc : (readChunks cs ps).1.cancelled = true
            · simp [codeLoop, hcb, hpc, hch, hstream, hrc,
                approvalsExclusive_append, endLive_append, approvalsExclusive, endLive, hrd]
            · by_cases hemp : (readChunks cs ps).2.2.2.isEmpty = true
              · simp [codeLoop, hcb, hpc, hch, hstream, hrc, hemp,
                  approvalsExclusive_append, endLive_append, approvalsExclusive, endLive, hrd]
              · by_cases hrem : (50 - total == 0) = true
                · simp [codeLoop, hcb, hpc, hch, hstream, hrc, hemp, hrem,
                    approvalsExclusive_append, endLive_append, approvalsExclusive, endLive, hrd]
                · have hpa := procCalls_approvals
                    ((readChunks cs ps).2.2.2.take (50 - total)) (readChunks cs ps).1 total
                  by_cases hbrk : ((procCalls ((readChunks cs ps).2.2.2.take (50 - total))
                      (readChunks cs ps).1 total).1.cancelled ||
                      (procCalls ((readChunks cs ps).2.2.2.take (50 - total))
                      (readChunks cs ps).1 total).2.2.2.isEmpty) = true
                  · simp [codeLoop, hcb, hpc, hch, hstream, hrc, hemp, hrem, hbrk,
                      approvalsExclusive_append, endLive_append, approvalsExclusive, endLive, hrd, hpa]
                  · have hrec := ih (iter + 1)
                      (procCalls ((readChunks cs ps).2.2.2.take (50 - total))
                        (readChunks cs ps).1 total).1
                      (procCalls ((readChunks cs ps).2.2.2.take (50 - total))
                        (readChunks cs ps).1 total).2.1
                      (resp ++ (readChunks cs ps).2.2.1)
                    simp [codeLoop, hcb, hpc, hch, hstream, hrc, hemp, hrem, hbrk,
                      approvalsExclusive_append, endLive_append, approvalsExclusive, endLive, hrd, hpa, hrec]

theorem endLive_take_le (tr : List Ev) :
    ∀ (live : Nat), approvalsExclusive tr live = true → live ≤ 1 →
      ∀ n, endLive (tr.take n) live ≤ 1 := by
  induction tr with
  | nil => intro live _ h1 n; simpa [endLive] using h1
  | cons e rest ih =>
    intro live h h1 n
    cases n with
    | zero => simpa [endLive] using h1
    | succ m =>
      cases e with
      | approvalCreated =>
        simp only [approvalsExclusive, Bool.and_eq_true, beq_iff_eq] at h
        simpa [List.take, endLive] using ih 1 h.2 (by omega) m
      | approvalDone =>
        simp only [approvalsExclusive] at h
        simpa [List.take, endLive] using ih 0 h (by omega) m
      | chunk s =>
        simp only [approvalsExclusive] at h
        simpa [List.take, endLive] using ih live h h1 m
      | actStart t =>
        simp only [approvalsExclusive] at h
        simpa [List.take, endLive] using ih live h h1 m
      | actApproval t =>
        simp only [approvalsExclusive] at h
        simpa [List.take, endLive] using ih live h h1 m
      | actResult t r =>
        simp only [approvalsExclusive] at h
        simpa [List.take, endLive] using ih live h h1 m
      | execCall t =>
        simp only [approvalsExclusive] at h
        simpa [List.take, endLive] using ih live h h1 m
      | cancelEv =>
        simp only [approvalsExclusive] at h
        simpa [List.take, endLive] using ih live h h1 m
      | sent p =>
        simp only [approvalsExclusive] at h
        simpa [List.take, endLive] using ih live h h1 m

/-- C5: in every run of the code turn loop, a new pending-approval future
is only ever created while no earlier one is live (every creation is
preceded by the resolution or cancellation of the previous future), and
at every instant of the trace at most one approval future is live. -/
theorem c5_approval_exclusive (turns : Nat → STurn) (ps0 : PanelState) :
    approvalsExclusive (run_code_turn turns ps0).trace 0 = true ∧
    (∀ n, endLive ((run_code_turn turns ps0).trace.take n) 0 ≤ 1) := by
  have h := codeLoop_approvals turns 30 0 { ps0 with cancelled := false } 0 ""
  refine ⟨h.1, fun n => ?_⟩
  exact endLive_take_le _ 0 h.1 (by omega) n

/-- C6: resolving a pending run_command approval as denial clears the
gate, synthesizes exactly the denial error dict as that call's tool
result part, executes nothing for that call, and continues with the
remaining calls; in a full loop run the denial part is sent back to the
backend as the next turn input, and approve_command always leaves the
panel without a live pending approval. -/
theorem c6_denial_path (rest : List SCall) (ps : PanelState) (total : Nat)
    (cmd : String) (b : ExecBehavior) (d : Bool)
    (hc : ps.cancelled = false) :
    (procCalls (⟨"run_command", cmd, .denied, b, d⟩ :: rest) ps total).2.2.2.head? =
      some (Part.funcResp "run_command" (ToolResult.error "Command denied by user.")) ∧
    (procCalls (⟨"run_command", cmd, .denied, b, d⟩ :: rest) ps total).2.2.1 =
      [Ev.actStart "run_command", Ev.approvalCreated, Ev.actApproval "run_command",
       Ev.approvalDone,
       Ev.actResult "run_command" (ToolResult.error "Command denied by user.")] ++
      (procCalls rest (clearApproval (setApproval cmd ps)) (total + 1)).2.2.1 ∧
    countExec [Ev.actStart "run_command", Ev.approvalCreated, Ev.actApproval "run_command",
       Ev.approvalDone,
       Ev.actResult "run_command" (ToolResult.error "Command denied by user.")] = 0 ∧
    (procCalls (⟨"run_command", cmd, .denied, b, d⟩ :: rest) ps total).2.2.2 =
      Part.funcResp "run_command" (ToolResult.error "Command denied by user.") ::
      (procCalls rest (clearApproval (setApproval cmd ps)) (total + 1)).2.2.2 ∧
    (procCalls (⟨"run_command", cmd, .denied, b, d⟩ :: rest) ps total).1 =
      (procCalls rest (clearApproval (setApproval cmd ps)) (total + 1)).1 ∧
    hasPendingPs (clearApproval (setApproval cmd ps)) = false ∧
    ((Ev.sent [Part.funcResp "run_command" (ToolResult.error "Command denied by user.")]) ∈
      (run_code_turn (fun i =>
        if i == 0 then ⟨false, .streamChunks [⟨false, false, some "t",
          [⟨"run_command", "rm -rf /tmp/x", .denied, .returns (.value ""), false⟩]⟩]⟩
        else ⟨false, .streamChunks []⟩)
        { defaultPanelState with chat := some 0 }).trace) ∧
    (∀ (m : PanelMap) (p : Nat), has_pending_approval p (approve_command false p m) = false) := by
  refine ⟨?_, ?_, rfl, ?_, ?_, rfl, by decide, ?_⟩
  · simp [procCalls, isGatedTool, hc]
  · simp [procCalls, isGatedTool, hc]
  · simp [procCalls, isGatedTool, hc]
  · simp [procCalls, isGatedTool, hc]
  · intro m p
    cases hm : lookupA p m with
    | none =>
      have hap : lookupA p (m ++ [(p, defaultPanelState)]) = some defaultPanelState :=
        lookupA_append_missing p defaultPanelState m hm
      have hac : approve_command false p m = m ++ [(p, defaultPanelState)] := by
        unfold approve_command get_panel
        rw [hm]
        rfl
      rw [hac]
      simp only [has_pending_approval, hap]
      rfl
    | some st =>
      cases hpa : st.pending_approval with
      | none => simp [approve_command, get_panel, hm, hpa, has_pending_approval]
      | some f =>
        cases f with
        | pendingFut =>
          have hac : approve_command false p m =
              updatePanel p { st with pending_approval := some (resolveFuture false FutureState.pendingFut) } m := by
            unfold approve_command get_panel
            rw [hm]
            simp only [hpa]
            rfl
          rw [hac]
          have hup := lookupA_updatePanel p
            { st with pending_approval := some (resolveFuture false FutureState.pendingFut) } m
          rw [hm] at hup
          simp only [Option.isSome_some, if_true] at hup
          simp only [has_pending_approval, hup]
          rfl
        | resolvedFut a =>
          simp [approve_command, get_panel, hm, hpa, futureDone, has_pending_approval]
        | cancelledFut =>
          simp [approve_command, get_panel, hm, hpa, futureDone, has_pending_approval]

theorem afterFirstCancel_append (a b : List Ev) :
    afterFirstCancel (a ++ b) =
      if hasCancel a = true then afterFirstCancel a ++ b else afterFirstCancel b := by
  induction a with
  | nil => simp [afterFirstCancel, hasCancel]
  | cons e rest ih =>
    cases e <;> simp [afterFirstCancel, hasCancel, isCancelEvB, ih, List.any_cons]

theorem hasCancel_nil : hasCancel [] = false := rfl

theorem hasCancel_cons (e : Ev) (l : List Ev) :
    hasCancel (e :: l) = (isCancelEvB e || hasCancel l) := by
  simp [hasCancel, List.any_cons]

theorem hasCancel_append (a b : List Ev) :
    hasCancel (a ++ b) = (hasCancel a || hasCancel b) := by
  simp [hasCancel, List.any_append]

theorem afterFirstCancel_of_clean (a : List Ev) (h : hasCancel a = false) :
    afterFirstCancel a = [] := by
  induction a with
  | nil => rfl
  | cons e rest ih =>
    simp only [hasCancel, List.any_cons, Bool.or_eq_false_iff] at h
    simp only [afterFirstCancel, h.1, Bool.false_eq_true, if_false]
    exact ih (by simp [hasCancel, h.2])

theorem procCalls_cancelled (l : List SCall) (ps : PanelState) (total : Nat)
    (h : ps.cancelled = true) : procCalls l ps total = (ps, total, [], []) := by
  cases l with
  | nil => rfl
  | cons fc rest => simp [procCalls, h]

theorem hasPendingPs_cancelPanelPs (ps : PanelState) :
    hasPendingPs (cancelPanelPs ps) = false := by
  rcases ps with ⟨c, s, ic, sn, cf, pa, pc⟩
  rcases pa with _ | f
  · rfl
  · rcases f <;> rfl

theorem readChunks_cancel (cs : List SChunk) :
    ∀ ps : PanelState, ps.cancelled = false →
      ((readChunks cs ps).1.cancelled = hasCancel (readChunks cs ps).2.1) ∧
      ((afterFirstCancel (readChunks cs ps).2.1).all allowedAfterCancel = true) ∧
      countResults (afterFirstCancel (readChunks cs ps).2.1) = 0 := by
  induction cs with
  | nil =>
    intro ps h
    simp [readChunks, afterFirstCancel, hasCancel_nil, countResults, h]
  | cons c rest ih =>
    intro ps h
    by_cases hch : c.cancelHere = true
    · by_cases hto : c.timedOut = true
      · simp [readChunks, hch, hto, cancelPanelPs, hasCancel_nil, hasCancel_cons, hasCancel_append, isCancelEvB,
          afterFirstCancel, allowedAfterCancel, countResults]
      · simp [readChunks, hch, hto, cancelPanelPs, hasCancel_nil, hasCancel_cons, hasCancel_append, isCancelEvB,
          afterFirstCancel, allowedAfterCancel, countResults]
    · by_cases hto : c.timedOut = true
      · simp [readChunks, hch, hto, h, hasCancel_nil, hasCancel_cons, hasCancel_append, isCancelEvB,
          afterFirstCancel, allowedAfterCancel, countResults]
      · have hr := ih ps h
        cases htxt : c.text <;>
          simp [readChunks, hch, hto, h, htxt, hasCancel_nil, hasCancel_cons,
            hasCancel_append, isCancelEvB,
            afterFirstCancel, afterFirstCancel_append, allowedAfterCancel,
            countResults, hr.1, hr.2.1, hr.2.2]

theorem execStep_cancel (fc : SCall) (ps : PanelState) (h : ps.cancelled = false) :
    ((execStep fc ps).1.cancelled = hasCancel (execStep fc ps).2.1) ∧
    ((afterFirstCancel (execStep fc ps).2.1).all allowedAfterCancel = true) ∧
    countResults (afterFirstCancel (execStep fc ps).2.1) ≤ 1 := by
  by_cases hkt : isKnownTool fc.name = true
  · by_cases hdc : (fc.cancelDuringExec && isAsyncTool fc.name) = true
    · simp [execStep, hkt, hdc, cancelPanelPs, hasCancel_nil, hasCancel_cons,
        hasCancel_append, isCancelEvB,
        afterFirstCancel, allowedAfterCancel, countResults]
    · simp [execStep, hkt, hdc, h, hasCancel_nil, hasCancel_cons,
        hasCancel_append, isCancelEvB,
        afterFirstCancel, allowedAfterCancel, countResults]
  · simp [execStep, hkt, h, hasCancel_nil, hasCancel_cons,
      hasCancel_append, isCancelEvB,
      afterFirstCancel, allowedAfterCancel, countResults]

theorem procCalls_cancel (l : List SCall) :
    ∀ (ps : PanelState) (total : Nat), ps.cancelled = false →
      ((procCalls l ps total).1.cancelled = hasCancel (procCalls l ps total).2.2.1) ∧
      ((afterFirstCancel (procCalls l ps total).2.2.1).all allowedAfterCancel = true) ∧
      countResults (afterFirstCancel (procCalls l ps total).2.2.1) ≤ 1 := by
  induction l with
  | nil =>
    intro ps total h
    simp [procCalls, afterFirstCancel, hasCancel_nil, countResults, h]
  | cons fc rest ih =>
    intro ps total h
    by_cases hg : isGatedTool fc.name = true
    · cases ho : fc.outcome with
      | futCancelled =>
        simp [procCalls, h, hg, ho, clearApproval, cancelPanelPs, hasCancel_nil,
          hasCancel_cons, hasCancel_append, isCancelEvB,
          afterFirstCancel, allowedAfterCancel, countResults]
      | denied =>
        have hclr : (clearApproval (setApproval fc.cmd ps)).cancelled = false := h
        have hr := ih (clearApproval (setApproval fc.cmd ps)) (total + 1) hclr
        by_cases hcr : hasCancel (procCalls rest (clearApproval (setApproval fc.cmd ps))
            (total + 1)).2.2.1 = true
        · simp [procCalls, h, hg, ho, hasCancel_nil, hasCancel_cons, hasCancel_append, isCancelEvB,
            afterFirstCancel, afterFirstCancel_append, allowedAfterCancel, countResults,
            hr.1, hr.2.1, hr.2.2, hcr]
        · simp [procCalls, h, hg, ho, hasCancel_nil, hasCancel_cons, hasCancel_append, isCancelEvB,
            afterFirstCancel, afterFirstCancel_append, allowedAfterCancel, countResults,
            hr.1, hr.2.1, hr.2.2, hcr, afterFirstCancel_of_clean]
      | approved =>
        have hclr : (clearApproval (setApproval fc.cmd ps)).cancelled = false := h
        have hex := execStep_cancel fc (clearApproval (setApproval fc.cmd ps)) hclr
        by_cases hxc : (execStep fc (clearApproval (setApproval fc.cmd ps))).1.cancelled = true
        · have hrec := procCalls_cancelled rest
            (execStep fc (clearApproval (setApproval fc.cmd ps))).1 (total + 1) hxc
          have hxcc : hasCancel (execStep fc (clearApproval (setApproval fc.cmd ps))).2.1 = true := by
            rw [← hex.1]; exact hxc
          simp [procCalls, h, hg, ho, hrec, hasCancel_nil, hasCancel_cons, hasCancel_append, isCancelEvB,
            afterFirstCancel, afterFirstCancel_append, allowedAfterCancel, countResults,
            hex.2.1, hex.2.2, hxcc, hxc]
        · have hxf : (execStep fc (clearApproval (setApproval fc.cmd ps))).1.cancelled = false := by
            simp at hxc; exact hxc
          have hxcc : hasCancel (execStep fc (clearApproval (setApproval fc.cmd ps))).2.1 = false := by
            rw [← hex.1]; exact hxf
          have hr := ih (execStep fc (clearApproval (setApproval fc.cmd ps))).1 (total + 1) hxf
          by_cases hcr : hasCancel (procCalls rest
              (execStep fc (clearApproval (setApproval fc.cmd ps))).1 (total + 1)).2.2.1 = true
          · simp [procCalls, h, hg, ho, hasCancel_nil, hasCancel_cons, hasCancel_append, isCancelEvB,
              afterFirstCancel, afterFirstCancel_append, allowedAfterCancel, countResults,
              hr.1, hr.2.1, hr.2.2, hxcc, hcr, afterFirstCancel_of_clean]
          · simp [procCalls, h, hg, ho, hasCancel_nil, hasCancel_cons, hasCancel_append, isCancelEvB,
              afterFirstCancel, afterFirstCancel_append, allowedAfterCancel, countResults,
              hr.1, hr.2.1, hr.2.2, hxcc, hcr, afterFirstCancel_of_clean]
    · have hex := execStep_cancel fc ps h
      by_cases hxc : (execStep fc ps).1.cancelled = true
      · have hrec := procCalls_cancelled rest (execStep fc ps).1 (total + 1) hxc
        have hxcc : hasCancel (execStep fc ps).2.1 = true := by
          rw [← hex.1]; exact hxc
        simp [procCalls, h, hg, hrec, hasCancel_nil, hasCancel_cons, hasCancel_append, isCancelEvB,
          afterFirstCancel, afterFirstCancel_append, allowedAfterCancel, countResults,
          hex.2.1, hex.2.2, hxcc, hxc]
      · have hxf : (execStep fc ps).1.cancelled = false := by
          simp at hxc; exact hxc
        have hxcc : hasCancel (execStep fc ps).2.1 = false := by
          rw [← hex.1]; exact hxf
        have hr := ih (execStep fc ps).1 (total + 1) hxf
        by_cases hcr : hasCancel (procCalls rest (execStep fc ps).1 (total + 1)).2.2.1 = true
        · simp [procCalls, h, hg, hasCancel_nil, hasCancel_cons, hasCancel_append, isCancelEvB,
            afterFirstCancel, afterFirstCancel_append, allowedAfterCancel, countResults,
            hr.1, hr.2.1, hr.2.2, hxcc, hcr, afterFirstCancel_of_clean]
        · simp [procCalls, h, hg, hasCancel_nil, hasCancel_cons, hasCancel_append, isCancelEvB,
            afterFirstCancel, afterFirstCancel_append, allowedAfterCancel, countResults,
            hr.1, hr.2.1, hr.2.2, hxcc, hcr, afterFirstCancel_of_clean]

theorem codeLoop_cancel (turns : Nat → STurn) :
    ∀ (fuel iter : Nat) (ps : PanelState) (total : Nat) (resp : String),
      ps.cancelled = false →
      ((afterFirstCancel (codeLoop turns fuel iter ps total resp).trace).all
        allowedAfterCancel = true) ∧
      countResults (afterFirstCancel (codeLoop turns fuel iter ps total resp).trace) ≤ 1 := by
  intro fuel
  induction fuel with
  | zero => intro iter ps total resp h; simp [codeLoop, afterFirstCancel, countResults]
  | succ n ih =>
    intro iter ps total resp hpc
    by_cases hcb : (turns iter).cancelBefore = true
    · simp [codeLoop, hcb, cancelPanelPs, afterFirstCancel, isCancelEvB, countResults]
    · by_cases hch : ps.chat.isNone = true
      · simp [codeLoop, hcb, hpc, hch, afterFirstCancel, countResults]
      · cases hstream : (turns iter).stream with
        | openTimeout ch =>
          cases ch <;>
            simp [codeLoop, hcb, hpc, hch, hstream, cancelPanelPs, afterFirstCancel,
              isCancelEvB, allowedAfterCancel, countResults, streamTimeoutNotice,
              requestTimeoutNotice]
        | streamError ch msg =>
          cases ch <;>
            simp [codeLoop, hcb, hpc, hch, hstream, cancelPanelPs, afterFirstCancel,
              isCancelEvB, allowedAfterCancel, countResults]
        | streamChunks cs =>
          have hrd := readChunks_cancel cs ps hpc
          by_cases hrc : (readChunks cs ps).1.cancelled = true
          · have hc1 : hasCancel (readChunks cs ps).2.1 = true := by rw [← hrd.1]; exact hrc
            simp [codeLoop, hcb, hpc, hch, hstream, hrc, afterFirstCancel_append,
              afterFirstCancel, countResults, hc1, hrd.2.1, hrd.2.2]
          · have hrcF : (readChunks cs ps).1.cancelled = false := by
              simp at hrc; exact hrc
            have hc1 : hasCancel (readChunks cs ps).2.1 = false := by rw [← hrd.1]; exact hrcF
            have hcl1 : afterFirstCancel (readChunks cs ps).2.1 = [] :=
              afterFirstCancel_of_clean _ hc1
            by_cases hemp : (readChunks cs ps).2.2.2.isEmpty = true
            · simp [codeLoop, hcb, hpc, hch, hstream, hrc, hemp, hcl1, countResults]
            · by_cases hrem : (50 - total == 0) = true
              · simp [codeLoop, hcb, hpc, hch, hstream, hrc, hemp, hrem,
                  afterFirstCancel_append, afterFirstCancel, isCancelEvB,
                  allowedAfterCancel, countResults, hc1, hcl1]
              · have hpa := procCalls_cancel ((readChunks cs ps).2.2.2.take (50 - total))
                  (readChunks cs ps).1 total hrcF
                by_cases hbrk : ((procCalls ((readChunks cs ps).2.2.2.take (50 - total))
                    (readChunks cs ps).1 total).1.cancelled ||
                    (procCalls ((readChunks cs ps).2.2.2.take (50 - total))
                    (readChunks cs ps).1 total).2.2.2.isEmpty) = true
                · by_cases hc2 : hasCancel (procCalls ((readChunks cs ps).2.2.2.take (50 - total))
                      (readChunks cs ps).1 total).2.2.1 = true
                  · simp [codeLoop, hcb, hpc, hch, hstream, hrc, hemp, hrem, hbrk,
                      afterFirstCancel_append, countResults, hc1, hcl1, hc2,
                      hpa.2.1, hpa.2.2]
                  · simp [codeLoop, hcb, hpc, hch, hstream, hrc, hemp, hrem, hbrk,
                      afterFirstCancel_append, countResults, hc1, hcl1, hc2,
                      afterFirstCancel_of_clean]
                · have hpcf : (procCalls ((readChunks cs ps).2.2.2.take (50 - total))
                      (readChunks cs ps).1 total).1.cancelled = false := by
                    have hb2 := hbrk
                    simp only [Bool.or_eq_true, not_or, Bool.not_eq_true] at hb2
                    exact hb2.1
                  have hc2 : hasCancel (procCalls ((readChunks cs ps).2.2.2.take (50 - total))
                      (readChunks cs ps).1 total).2.2.1 = false := by
                    rw [← hpa.1]; exact hpcf
                  have hcl2 := afterFirstCancel_of_clean _ hc2
                  have hrec := ih (iter + 1)
                    (procCalls ((readChunks cs ps).2.2.2.take (50 - total))
                      (readChunks cs ps).1 total).1
                    (procCalls ((readChunks cs ps).2.2.2.take (50 - total))
                      (readChunks cs ps).1 total).2.1
                    (resp ++ (readChunks cs ps).2.2.1) hpcf
                  simp [codeLoop, hcb, hpc, hch, hstream, hrc, hemp, hrem, hbrk,
                    afterFirstCancel_append, afterFirstCancel, isCancelEvB, countResults,
                    hc1, hcl1, hc2, hcl2, hrec.1, hrec.2]

theorem hasPendingPs_clearApproval (ps : PanelState) :
    hasPendingPs (clearApproval ps) = false := rfl

theorem readChunks_pending (cs : List SChunk) :
    ∀ ps : PanelState, hasPendingPs ps = false →
      hasPendingPs (readChunks cs ps).1 = false := by
  induction cs with
  | nil => intro ps h; simpa [readChunks] using h
  | cons c rest ih =>
    intro ps h
    have hcps := hasPendingPs_cancelPanelPs ps
    by_cases hch : c.cancelHere = true <;>
      by_cases hto : c.timedOut = true <;>
      cases htxt : c.text <;>
      by_cases hpcc : (if c.cancelHere = true then cancelPanelPs ps else ps).cancelled = true <;>
      simp [readChunks, hch, hto, htxt, hpcc, h, hcps, ih] <;>
      simp_all [readChunks, hch, hto, htxt, h, hcps, ih]

theorem execStep_pending (fc : SCall) (ps : PanelState)
    (h : hasPendingPs ps = false) : hasPendingPs (execStep fc ps).1 = false := by
  have hcps := hasPendingPs_cancelPanelPs ps
  by_cases hkt : isKnownTool fc.name = true
  · by_cases hdc : (fc.cancelDuringExec && isAsyncTool fc.name) = true
    · simpa [execStep, hkt, hdc] using hcps
    · simpa [execStep, hkt, hdc] using h
  · simpa [execStep, hkt] using h

theorem procCalls_pending (l : List SCall) :
    ∀ (ps : PanelState) (total : Nat), hasPendingPs ps = false →
      hasPendingPs (procCalls l ps total).1 = false := by
  induction l with
  | nil => intro ps total h; simpa [procCalls] using h
  | cons fc rest ih =>
    intro ps total h
    by_cases hc : ps.cancelled = true
    · simpa [procCalls, hc] using h
    · by_cases hg : isGatedTool fc.name = true
      · cases ho : fc.outcome with
        | futCancelled =>
          simp [procCalls, hc, hg, ho, hasPendingPs_clearApproval]
        | denied =>
          simp only [procCalls, hc, hg, ho]
          simpa using ih (clearApproval (setApproval fc.cmd ps)) (total + 1)
            (hasPendingPs_clearApproval _)
        | approved =>
          simp only [procCalls, hc, hg, ho]
          simpa using ih (execStep fc (clearApproval (setApproval fc.cmd ps))).1 (total + 1)
            (execStep_pending fc _ (hasPendingPs_clearApproval _))
      · simp only [procCalls, hc, hg]
        simpa using ih (execStep fc ps).1 (total + 1) (execStep_pending fc ps h)

theorem codeLoop_pending (turns : Nat → STurn) :
    ∀ (fuel iter : Nat) (ps : PanelState) (total : Nat) (resp : String),
      hasPendingPs ps = false →
      hasPendingPs (codeLoop turns fuel iter ps total resp).ps = false := by
  intro fuel
  induction fuel with
  | zero => intro iter ps total resp h; simpa [codeLoop] using h
  | succ n ih =>
    intro iter ps total resp h
    by_cases hcb : (turns iter).cancelBefore = true
    · simp [codeLoop, hcb, hasPendingPs_cancelPanelPs, cancelPanelPs, hasPendingPs,
        cancelFuture]
      rcases hpa : ps.pending_approval with _ | f
      · simp [hpa]
      · rcases f <;> simp [hpa, futureDone]
    · by_cases hpc : ps.cancelled = true
      · simpa [codeLoop, hcb, hpc] using h
      · by_cases hch : ps.chat.isNone = true
        · simpa [codeLoop, hcb, hpc, hch] using h
        · cases hstream : (turns iter).stream with
          | openTimeout ch =>
            cases ch with
            | true =>
              have hcc := hasPendingPs_cancelPanelPs ps
              simp [codeLoop, hcb, hpc, hch, hstream, cancelPanelPs] at hcc ⊢
              exact hcc
            | false => simpa [codeLoop, hcb, hpc, hch, hstream] using h
          | streamError ch msg =>
            cases ch with
            | true =>
              have hcc := hasPendingPs_cancelPanelPs ps
              simp [codeLoop, hcb, hpc, hch, hstream, cancelPanelPs] at hcc ⊢
              exact hcc
            | false => simpa [codeLoop, hcb, hpc, hch, hstream] using h
          | streamChunks cs =>
            have hrp := readChunks_pending cs ps h
            by_cases hrc : (readChunks cs ps).1.cancelled = true
            · simpa [codeLoop, hcb, hpc, hch, hstream, hrc] using hrp
            · by_cases hemp : (readChunks cs ps).2.2.2.isEmpty = true
              · simpa [codeLoop, hcb, hpc, hch, hstream, hrc, hemp] using hrp
              · by_cases hrem : (50 - total == 0) = true
                · simpa [codeLoop, hcb, hpc, hch, hstream, hrc, hemp, hrem] using hrp
                · have hpp := procCalls_pending ((readChunks cs ps).2.2.2.take (50 - total))
                    (readChunks cs ps).1 total hrp
                  by_cases hbrk : ((procCalls ((readChunks cs ps).2.2.2.take (50 - total))
                      (readChunks cs ps).1 total).1.cancelled ||
                      (procCalls ((readChunks cs ps).2.2.2.take (50 - total))
                      (readChunks cs ps).1 total).2.2.2.isEmpty) = true
                  · simpa [codeLoop, hcb, hpc, hch, hstream, hrc, hemp, hrem, hbrk] using hpp
                  · have hrec := ih (iter + 1)
                      (procCalls ((readChunks cs ps).2.2.2.take (50 - total))
                        (readChunks cs ps).1 total).1
                      (procCalls ((readChunks cs ps).2.2.2.take (50 - total))
                        (readChunks cs ps).1 total).2.1
                      (resp ++ (readChunks cs ps).2.2.1) hpp
                    simpa [codeLoop, hcb, hpc, hch, hstream, hrc, hemp, hrem, hbrk] using hrec

/-- C3 counterexample: cancel_panel lands while an asynchronous tool call
(search_files) is in flight; the call runs to completion and its result
activity callback still fires after the cancellation, so the claim that
no further on_tool_activity callback fires for the current turn is false
as stated. -/
theorem c3_counterexample :
    ((afterFirstCancel (run_code_turn (fun _ =>
        ⟨false, .streamChunks [⟨false, false, some "hello",
          [⟨"search_files", "", .approved, .returns (.value "r"), true⟩]⟩]⟩)
      { defaultPanelState with chat := some 0 }).trace).all
        (fun e => !isCallbackEv e)) = false := by decide

/-- C3 amended: after cancel_panel takes effect, no further tool call is
initiated and no further backend text chunk is forwarded; the only
callbacks that may still fire for the current turn are the single result
activity of the tool call already in flight (run to completion, its
result not fed back to the backend) and a timeout-notice chunk when a
backend wait expires after the cancellation; has_pending_approval is
false immediately after cancel_panel and at the end of the turn loop. -/
theorem c3_amended_cancellation (turns : Nat → STurn) (ps0 : PanelState)
    (hp : ps0.pending_approval = none) :
    ((afterFirstCancel (run_code_turn turns ps0).trace).all allowedAfterCancel = true) ∧
    countResults (afterFirstCancel (run_code_turn turns ps0).trace) ≤ 1 ∧
    (∀ (p : Nat) (m : PanelMap), has_pending_approval p (cancel_panel p m) = false) ∧
    hasPendingPs (run_code_turn turns ps0).ps = false := by
  have hfalse : ({ ps0 with cancelled := false } : PanelState).cancelled = false := rfl
  have hcl := codeLoop_cancel turns 30 0 { ps0 with cancelled := false } 0 "" hfalse
  have h0 : hasPendingPs { ps0 with cancelled := false } = false := by
    simp [hasPendingPs, hp]
  refine ⟨hcl.1, hcl.2, ?_, codeLoop_pending turns 30 0 _ 0 "" h0⟩
  intro p m
  cases hm : lookupA p m with
  | none => simp [cancel_panel, hm, has_pending_approval]
  | some st =>
    have hup := lookupA_updatePanel p (cancelPanelPs st) m
    rw [hm] at hup
    simp only [Option.isSome_some, if_true] at hup
    simp only [cancel_panel, hm, has_pending_approval, hup]
    rcases hsp : st.pending_approval with _ | f
    · simp [cancelPanelPs, cancelFuture, hsp]
    · rcases f <;> simp [cancelPanelPs, cancelFuture, hsp, futureDone]

/-- C3 amended witness: the trivial schedule with no cancellation. -/
theorem c3_witness :
    defaultPanelState.pending_approval = none ∧
    hasPendingPs (run_code_turn (fun _ => ⟨false, StreamOutcome.streamChunks []⟩)
      defaultPanelState).ps = false :=
  ⟨rfl, (c3_amended_cancellation (fun _ => ⟨false, StreamOutcome.streamChunks []⟩)
      defaultPanelState rfl).2.2.2⟩

/-- C6 witness: a concrete denied gated call at the head of the list. -/
theorem c6_witness :
    (procCalls [⟨"run_command", "rm -rf /tmp/x", AwaitOutcome.denied,
        ExecBehavior.returns (ToolResult.value ""), false⟩]
      defaultPanelState 0).2.2.2.head? =
      some (Part.funcResp "run_command" (ToolResult.error "Command denied by user.")) :=
  (c6_denial_path [] defaultPanelState 0 "rm -rf /tmp/x"
    (ExecBehavior.returns (ToolResult.value "")) false rfl).1

end Jarvis
